import Mathlib

/-!
# AsteroidShooter: a shallow embedding of `source/Main.cpp`

Conventions of the embedding.

* `float` is modelled by the exact rationals `ℚ`: unless it names a rounding function, a
  statement below is a statement about the program in exact arithmetic (no rounding, no
  NaN, no infinity).  The float literals `0.2f`, `0.5f`, `0.25f`, `0.15f` are the rationals
  they denote in decimal.  Where rounding decides the outcome, the shot accumulator is also
  given with every operation rounded by a function `rnd` (`roundedShotLoop`,
  `roundedFiring`), and `roundF32` is rounding to binary32.
* `int` (`hp`, `score`, damage, size) is modelled by `ℤ`.  `hp` stays within `[-79, 100]`
  and `score` grows by at most `40` per destroyed asteroid, so the 32-bit range is not
  reached in any run of realistic length; signed overflow is not modelled.
* Drawing, textures and window handling are not modelled.  The only datum of a texture
  that the simulation reads is `texture.width` of the player ship (it fixes the collision
  radius); it is the field `textureWidth`.
* The key state, the frame time, the values returned by the random source and the
  width of the loaded ship texture are inputs of a frame (`FrameInput`).
* `cosf`, `sinf`, `PI` and `Vector2Normalize` have irrational values in general; they are
  parameters of the model (`MathFns`).  `Vector2Distance a b < r` is decided exactly by
  comparing squares (`distanceLess`).
-/

namespace AsteroidShooter

/-! ## raylib, raymath and libc -/

/-- The raylib type `Vector2`. -/
structure Vector2 where
  x : ℚ
  y : ℚ
deriving DecidableEq, Repr

/-- The raymath function `Vector2Add`. -/
def Vector2Add (a b : Vector2) : Vector2 := ⟨a.x + b.x, a.y + b.y⟩

/-- The raymath function `Vector2Subtract`. -/
def Vector2Subtract (a b : Vector2) : Vector2 := ⟨a.x - b.x, a.y - b.y⟩

/-- The raymath function `Vector2Scale`. -/
def Vector2Scale (v : Vector2) (s : ℚ) : Vector2 := ⟨v.x * s, v.y * s⟩

/-- Square of `Vector2Distance a b`. -/
def Vector2DistanceSqr (a b : Vector2) : ℚ :=
  (a.x - b.x) * (a.x - b.x) + (a.y - b.y) * (a.y - b.y)

/-- The test `Vector2Distance(a, b) < r`.  The distance is the non-negative square root of
`Vector2DistanceSqr a b`, so the test holds exactly when `r` is positive and the squared
distance is below `r * r`. -/
def distanceLess (a b : Vector2) (r : ℚ) : Bool :=
  decide (0 < r) && decide (Vector2DistanceSqr a b < r * r)

/-- The functions whose values are irrational in general, as parameters. -/
structure MathFns where
  cosf : ℚ → ℚ
  sinf : ℚ → ℚ
  PI : ℚ
  Vector2Normalize : Vector2 → Vector2

/-- The raylib function `GetRandomValue(lo, hi)`: an integer of `[lo, hi]` picked by the
random source; `raw` is the number the source delivers. -/
def GetRandomValue (raw : ℕ) (lo hi : ℤ) : ℤ := lo + (raw : ℤ) % (hi - lo + 1)

/-- `Utils::RandomFloat(lo, hi)`; `u` is the quotient `rand() / RAND_MAX`. -/
def Utils.RandomFloat (u : ℚ) (lo hi : ℚ) : ℚ := lo + u * (hi - lo)

/-- The libc function `fmodf`: `x - trunc(x / y) * y` (truncation toward zero). -/
def fmodf (x y : ℚ) : ℚ :=
  x - (if 0 ≤ x / y then (⌊x / y⌋ : ℚ) else (⌈x / y⌉ : ℚ)) * y

/-! ## Transform, physics, renderable -/

/-- The struct `TransformA`. -/
structure TransformA where
  position : Vector2 := ⟨0, 0⟩
  rotation : ℚ := 0
deriving DecidableEq, Repr

/-- The struct `Physics`. -/
structure Physics where
  velocity : Vector2 := ⟨0, 0⟩
  rotationSpeed : ℚ := 0
deriving DecidableEq, Repr

/-- The enumerator `Renderable::SMALL`. -/
def Renderable.SMALL : ℤ := 1

/-- The enumerator `Renderable::MEDIUM`. -/
def Renderable.MEDIUM : ℤ := 2

/-- The enumerator `Renderable::LARGE`. -/
def Renderable.LARGE : ℤ := 4

/-- The struct `Renderable`; `size` holds the value of the enum `Size`. -/
structure Renderable where
  size : ℤ := Renderable.SMALL
deriving DecidableEq, Repr

/-! ## Renderer and the constants of `Application` -/

/-- The constant `Application::C_WIDTH`. -/
def C_WIDTH : ℤ := 2560

/-- The constant `Application::C_HEIGHT`. -/
def C_HEIGHT : ℤ := 1400

/-- The constant `Application::MAX_AST`. -/
def MAX_AST : ℕ := 150

/-- The constant `Application::C_SPAWN_MIN`. -/
def C_SPAWN_MIN : ℚ := 15 / 100

/-- The constant `Application::C_SPAWN_MAX`. -/
def C_SPAWN_MAX : ℚ := 1 / 2

/-- `Renderer::Width()`: the renderer is initialised once, with `C_WIDTH`. -/
def Renderer.Width : ℤ := C_WIDTH

/-- `Renderer::Height()`: the renderer is initialised once, with `C_HEIGHT`. -/
def Renderer.Height : ℤ := C_HEIGHT

/-! ## Asteroids -/

/-- The dynamic type of an asteroid object. -/
inductive AsteroidClass where
  | TriangleAsteroid
  | SquareAsteroid
  | PentagonAsteroid
  | ChasingAsteroid
deriving DecidableEq, Repr

/-- The class `Asteroid` together with the tag of its concrete subclass. -/
structure Asteroid where
  cls : AsteroidClass
  transform : TransformA
  physics : Physics
  render : Renderable
  baseDamage : ℤ
deriving DecidableEq, Repr

/-- `Asteroid::GetPosition`. -/
def Asteroid.GetPosition (a : Asteroid) : Vector2 := a.transform.position

/-- `Asteroid::GetRadius`. -/
def Asteroid.GetRadius (a : Asteroid) : ℚ := 16 * (a.render.size : ℚ)

/-- `Asteroid::GetDamage`. -/
def Asteroid.GetDamage (a : Asteroid) : ℤ := a.baseDamage * a.render.size

/-- `Asteroid::GetSize`. -/
def Asteroid.GetSize (a : Asteroid) : ℤ := a.render.size

/-- The constant `Asteroid::SPEED_MIN`. -/
def Asteroid.SPEED_MIN : ℚ := 125

/-- The constant `Asteroid::SPEED_MAX`. -/
def Asteroid.SPEED_MAX : ℚ := 250

/-- The constant `Asteroid::ROT_MIN`. -/
def Asteroid.ROT_MIN : ℚ := 50

/-- The constant `Asteroid::ROT_MAX`. -/
def Asteroid.ROT_MAX : ℚ := 240

/-- What the random source delivers during one call of `Asteroid::init`. -/
structure AsteroidDraws where
  sizeRaw : ℕ
  edgeRaw : ℕ
  uEdge : ℚ
  uAng : ℚ
  uRad : ℚ
  uSpeed : ℚ
  uRotSpeed : ℚ
  uRot : ℚ
deriving DecidableEq, Repr

/-- The constructor `Asteroid::Asteroid(screenW, screenH)`, that is `Asteroid::init`, for an
object whose concrete class is `cls`; `baseDamage` has its default member initialiser. -/
def Asteroid.init (m : MathFns) (screenW screenH : ℤ) (d : AsteroidDraws)
    (cls : AsteroidClass) : Asteroid :=
  -- Choose size
  let size : ℤ := 1 * 2 ^ (GetRandomValue d.sizeRaw 1 2).toNat
  let radius : ℚ := 16 * (size : ℚ)
  -- Spawn at random edge
  let edge := GetRandomValue d.edgeRaw 0 3
  let position : Vector2 :=
    if edge = 0 then ⟨Utils.RandomFloat d.uEdge 0 screenW, -radius⟩
    else if edge = 1 then ⟨(screenW : ℚ) + radius, Utils.RandomFloat d.uEdge 0 screenH⟩
    else if edge = 2 then ⟨Utils.RandomFloat d.uEdge 0 screenW, (screenH : ℚ) + radius⟩
    else ⟨-radius, Utils.RandomFloat d.uEdge 0 screenH⟩
  -- Aim towards center with jitter
  let maxOff : ℚ := min (screenW : ℚ) (screenH : ℚ) * (2 / 10)
  let ang := Utils.RandomFloat d.uAng 0 (2 * m.PI)
  let rad := Utils.RandomFloat d.uRad 0 maxOff
  let center : Vector2 :=
    ⟨(screenW : ℚ) * (1 / 2) + m.cosf ang * rad, (screenH : ℚ) * (1 / 2) + m.sinf ang * rad⟩
  let dir := m.Vector2Normalize (Vector2Subtract center position)
  { cls := cls
    transform :=
      { position := position
        rotation := Utils.RandomFloat d.uRot 0 360 }
    physics :=
      { velocity := Vector2Scale dir (Utils.RandomFloat d.uSpeed Asteroid.SPEED_MIN Asteroid.SPEED_MAX)
        rotationSpeed := Utils.RandomFloat d.uRotSpeed Asteroid.ROT_MIN Asteroid.ROT_MAX }
    render := { size := size }
    baseDamage := 0 }

/-- The constructor of `TriangleAsteroid`. -/
def TriangleAsteroid.new (m : MathFns) (w h : ℤ) (d : AsteroidDraws) : Asteroid :=
  { Asteroid.init m w h d AsteroidClass.TriangleAsteroid with baseDamage := 5 }

/-- The constructor of `SquareAsteroid`. -/
def SquareAsteroid.new (m : MathFns) (w h : ℤ) (d : AsteroidDraws) : Asteroid :=
  { Asteroid.init m w h d AsteroidClass.SquareAsteroid with baseDamage := 10 }

/-- The constructor of `PentagonAsteroid`. -/
def PentagonAsteroid.new (m : MathFns) (w h : ℤ) (d : AsteroidDraws) : Asteroid :=
  { Asteroid.init m w h d AsteroidClass.PentagonAsteroid with baseDamage := 15 }

/-- The constructor of `ChasingAsteroid`. -/
def ChasingAsteroid.new (m : MathFns) (w h : ℤ) (d : AsteroidDraws) : Asteroid :=
  { Asteroid.init m w h d AsteroidClass.ChasingAsteroid with baseDamage := 20 }

/-- The exit test shared by both `Update` methods: the position has left the screen
rectangle inflated by the radius. -/
def Asteroid.outside (a : Asteroid) : Bool :=
  decide (a.transform.position.x < -a.GetRadius) ||
  decide (a.transform.position.x > (Renderer.Width : ℚ) + a.GetRadius) ||
  decide (a.transform.position.y < -a.GetRadius) ||
  decide (a.transform.position.y > (Renderer.Height : ℚ) + a.GetRadius)

/-- The base method `Asteroid::Update(dt)`: the moved asteroid and the returned flag. -/
def Asteroid.UpdateBase (a : Asteroid) (dt : ℚ) : Asteroid × Bool :=
  let a : Asteroid :=
    { a with
      transform :=
        { position := Vector2Add a.transform.position (Vector2Scale a.physics.velocity dt)
          rotation := a.transform.rotation + a.physics.rotationSpeed * dt } }
  if a.outside then (a, false) else (a, true)

/-- The override `ChasingAsteroid::Update(dt)`; `playerPos` is what `getPlayerPosition()`
returns. -/
def ChasingAsteroid.Update (m : MathFns) (playerPos : Vector2) (a : Asteroid) (dt : ℚ) :
    Asteroid × Bool :=
  let dir := m.Vector2Normalize (Vector2Subtract playerPos a.transform.position)
  let speed : ℚ := 110
  let a : Asteroid := { a with physics := { a.physics with velocity := Vector2Scale dir speed } }
  let a : Asteroid :=
    { a with
      transform :=
        { a.transform with
          position := Vector2Add a.transform.position (Vector2Scale a.physics.velocity dt) } }
  if a.outside then (a, false) else (a, true)

/-- The virtual call `asteroid->Update(dt)`. -/
def Asteroid.Update (m : MathFns) (playerPos : Vector2) (a : Asteroid) (dt : ℚ) :
    Asteroid × Bool :=
  match a.cls with
  | AsteroidClass.ChasingAsteroid => ChasingAsteroid.Update m playerPos a dt
  | _ => a.UpdateBase dt

/-- The enumerator `AsteroidShape::TRIANGLE`. -/
def AsteroidShape.TRIANGLE : ℤ := 3

/-- The enumerator `AsteroidShape::SQUARE`. -/
def AsteroidShape.SQUARE : ℤ := 4

/-- The enumerator `AsteroidShape::PENTAGON`. -/
def AsteroidShape.PENTAGON : ℤ := 5

/-- The enumerator `AsteroidShape::RANDOM`. -/
def AsteroidShape.RANDOM : ℤ := 0

/-- The factory `MakeAsteroid`.  `shape` is the value of the enum argument (the caller also
passes `static_cast<AsteroidShape>(6)`); `rRaw` and `typeRaw` feed the two calls of
`GetRandomValue` of the `RANDOM` branch. -/
def MakeAsteroid (m : MathFns) (w h : ℤ) (shape : ℤ) (rRaw typeRaw : ℕ)
    (d : AsteroidDraws) : Asteroid :=
  if shape = AsteroidShape.TRIANGLE then TriangleAsteroid.new m w h d
  else if shape = AsteroidShape.SQUARE then SquareAsteroid.new m w h d
  else if shape = AsteroidShape.PENTAGON then PentagonAsteroid.new m w h d
  else if shape = AsteroidShape.RANDOM then
    let r := GetRandomValue rRaw 0 9
    if r < 1 then ChasingAsteroid.new m w h d
    else
      let type := GetRandomValue typeRaw 0 2
      if type = 0 then TriangleAsteroid.new m w h d
      else if type = 1 then SquareAsteroid.new m w h d
      else PentagonAsteroid.new m w h d
  else ChasingAsteroid.new m w h d

/-! ## Projectiles -/

/-- The enum `WeaponType`. -/
inductive WeaponType where
  | LASER
  | BULLET
  | COUNT
deriving DecidableEq, Repr

/-- The value of an enumerator of `WeaponType`. -/
def WeaponType.toInt : WeaponType → ℤ
  | WeaponType.LASER => 0
  | WeaponType.BULLET => 1
  | WeaponType.COUNT => 2

/-- The cast `static_cast<WeaponType>(n)`, used on `0` and `1` only. -/
def WeaponType.ofInt (n : ℤ) : WeaponType :=
  if n = 0 then WeaponType.LASER else if n = 1 then WeaponType.BULLET else WeaponType.COUNT

/-- The class `Projectile` (without its texture handle). -/
structure Projectile where
  transform : TransformA
  physics : Physics
  baseDamage : ℤ
  type : WeaponType
  hasTexture : Bool
deriving DecidableEq, Repr

/-- The constructor `Projectile(pos, vel, dmg, wt, tex)`. -/
def Projectile.newTextured (pos vel : Vector2) (dmg : ℤ) (wt : WeaponType) : Projectile :=
  { transform := { position := pos }
    physics := { velocity := vel }
    baseDamage := dmg
    type := wt
    hasTexture := true }

/-- The constructor `Projectile(pos, vel, dmg, wt)`. -/
def Projectile.new (pos vel : Vector2) (dmg : ℤ) (wt : WeaponType) : Projectile :=
  { transform := { position := pos }
    physics := { velocity := vel }
    baseDamage := dmg
    type := wt
    hasTexture := false }

/-- `Projectile::Update(dt)`: the moved projectile, and `true` when it has to be removed. -/
def Projectile.Update (p : Projectile) (dt : ℚ) : Projectile × Bool :=
  let p : Projectile :=
    { p with
      transform :=
        { p.transform with
          position := Vector2Add p.transform.position (Vector2Scale p.physics.velocity dt) } }
  if p.transform.position.x < 0 ∨
      p.transform.position.x > (Renderer.Width : ℚ) ∨
      p.transform.position.y < 0 ∨
      p.transform.position.y > (Renderer.Height : ℚ) then
    (p, true)
  else (p, false)

/-- `Projectile::GetPosition`. -/
def Projectile.GetPosition (p : Projectile) : Vector2 := p.transform.position

/-- `Projectile::GetRadius`. -/
def Projectile.GetRadius (p : Projectile) : ℚ := if p.type = WeaponType.BULLET then 5 else 2

/-- `Projectile::GetDamage`. -/
def Projectile.GetDamage (p : Projectile) : ℤ := p.baseDamage

/-- The function `MakeProjectile`. -/
def MakeProjectile (wt : WeaponType) (pos : Vector2) (speed : ℚ) : Projectile :=
  let vel : Vector2 := ⟨0, -speed⟩
  if wt = WeaponType.LASER then Projectile.new pos vel 20 wt
  else Projectile.new pos vel 10 wt

/-! ## Ships -/

/-- The class `Ship`. -/
structure Ship where
  transform : TransformA
  hp : ℤ
  speed : ℚ
  alive : Bool
  fireRateLaser : ℚ
  fireRateBullet : ℚ
  spacingLaser : ℚ
  spacingBullet : ℚ
deriving DecidableEq, Repr

/-- The constructor `Ship::Ship(screenW, screenH)`. -/
def Ship.new (screenW screenH : ℤ) : Ship :=
  { transform := { position := ⟨(screenW : ℚ) * (1 / 2), (screenH : ℚ) * (1 / 2)⟩ }
    hp := 100
    speed := 400
    alive := true
    fireRateLaser := 18
    fireRateBullet := 22
    spacingLaser := 40
    spacingBullet := 20 }

/-- `Ship::TakeDamage`. -/
def Ship.TakeDamage (s : Ship) (dmg : ℤ) : Ship :=
  if !s.alive then s
  else
    let s : Ship := { s with hp := s.hp - dmg }
    if s.hp ≤ 0 then { s with alive := false } else s

/-- `Ship::IsAlive`. -/
def Ship.IsAlive (s : Ship) : Bool := s.alive

/-- `Ship::GetPosition`. -/
def Ship.GetPosition (s : Ship) : Vector2 := s.transform.position

/-- `Ship::GetHP`. -/
def Ship.GetHP (s : Ship) : ℤ := s.hp

/-- `Ship::GetFireRate`. -/
def Ship.GetFireRate (s : Ship) (wt : WeaponType) : ℚ :=
  if wt = WeaponType.LASER then s.fireRateLaser else s.fireRateBullet

/-- `Ship::GetSpacing`. -/
def Ship.GetSpacing (s : Ship) (wt : WeaponType) : ℚ :=
  if wt = WeaponType.LASER then s.spacingLaser else s.spacingBullet

/-- The constant `PlayerShip::OVERHEAT_MAX`. -/
def OVERHEAT_MAX : ℚ := 100

/-- The constant `PlayerShip::OVERHEAT_PER_SHOT`. -/
def OVERHEAT_PER_SHOT : ℚ := 3

/-- The constant `PlayerShip::OVERHEAT_COOLDOWN_RATE`. -/
def OVERHEAT_COOLDOWN_RATE : ℚ := 30

/-- The constant `PlayerShip::OVERHEAT_COOLDOWN_DELAY`. -/
def OVERHEAT_COOLDOWN_DELAY : ℚ := 1

/-- The class `PlayerShip`; `textureWidth` is `texture.width`. -/
structure PlayerShip extends Ship where
  overheat : ℚ
  overheatCooldown : ℚ
  overheated : Bool
  overheatSkillUsed : Bool
  textureWidth : ℤ
  scale : ℚ
deriving DecidableEq, Repr

/-- The constructor `PlayerShip::PlayerShip(w, h)`; `texW` is the width of the texture that
`LoadTexture` returns. -/
def PlayerShip.new (w h : ℤ) (texW : ℤ) : PlayerShip :=
  { toShip := Ship.new w h
    overheat := 0
    overheatCooldown := 0
    overheated := false
    overheatSkillUsed := false
    textureWidth := texW
    scale := 1 / 4 }

/-- `Ship::TakeDamage` called on a player ship. -/
def PlayerShip.TakeDamage (p : PlayerShip) (dmg : ℤ) : PlayerShip :=
  { p with toShip := p.toShip.TakeDamage dmg }

/-- `PlayerShip::GetRadius`. -/
def PlayerShip.GetRadius (p : PlayerShip) : ℚ := ((p.textureWidth : ℚ) * p.scale) * (1 / 2)

/-- `PlayerShip::CanShoot`. -/
def PlayerShip.CanShoot (p : PlayerShip) : Bool := !p.overheated

/-- `PlayerShip::GetOverheatPercent`. -/
def PlayerShip.GetOverheatPercent (p : PlayerShip) : ℚ := p.overheat / OVERHEAT_MAX

/-- `PlayerShip::IsOverheated`. -/
def PlayerShip.IsOverheated (p : PlayerShip) : Bool := p.overheated

/-- Everything one iteration of the main loop reads from outside the program. -/
structure FrameInput where
  /-- The result of `GetFrameTime()`. -/
  dt : ℚ
  /-- The results of `IsKeyDown`. -/
  keyW : Bool
  keyS : Bool
  keyA : Bool
  keyD : Bool
  keySpace : Bool
  /-- The results of `IsKeyPressed`. -/
  keyR : Bool
  keyOne : Bool
  keyTwo : Bool
  keyThree : Bool
  keyFour : Bool
  keyFive : Bool
  keyTab : Bool
  keyE : Bool
  /-- The width of the texture loaded when the player is recreated. -/
  texW : ℤ
  /-- The quotient `rand() / RAND_MAX` of the restart branch. -/
  uRestart : ℚ
  /-- The quotient `rand() / RAND_MAX` of the spawn branch. -/
  uSpawn : ℚ
  /-- The random numbers of `MakeAsteroid`. -/
  rRaw : ℕ
  typeRaw : ℕ
  draws : AsteroidDraws
deriving DecidableEq, Repr

/-- The position part of `PlayerShip::Update`. -/
def PlayerShip.move (p : PlayerShip) (k : FrameInput) (dt : ℚ) : PlayerShip :=
  let setY (q : PlayerShip) (y : ℚ) : PlayerShip :=
    { q with transform := { q.transform with position := { q.transform.position with y := y } } }
  let setX (q : PlayerShip) (x : ℚ) : PlayerShip :=
    { q with transform := { q.transform with position := { q.transform.position with x := x } } }
  if p.alive then
    let p := if k.keyW then setY p (p.transform.position.y - p.speed * dt) else p
    let p := if k.keyS then setY p (p.transform.position.y + p.speed * dt) else p
    let p := if k.keyA then setX p (p.transform.position.x - p.speed * dt) else p
    let p := if k.keyD then setX p (p.transform.position.x + p.speed * dt) else p
    p
  else setY p (p.transform.position.y + p.speed * dt)

/-- The weapon-cooling part of `PlayerShip::Update` (the three `if` statements after the
movement). -/
def PlayerShip.cool (p : PlayerShip) (dt : ℚ) : PlayerShip :=
  let p : PlayerShip :=
    if p.overheat > 0 then
      if p.overheatCooldown > 0 then { p with overheatCooldown := p.overheatCooldown - dt }
      else { p with overheat := max 0 (p.overheat - OVERHEAT_COOLDOWN_RATE * dt) }
    else p
  let p : PlayerShip :=
    if p.overheat ≥ OVERHEAT_MAX then { p with overheated := true, overheat := OVERHEAT_MAX }
    else p
  if p.overheated ∧ p.overheat ≤ 0 then { p with overheated := false, overheatSkillUsed := false }
  else p

/-- `PlayerShip::Update(dt)`. -/
def PlayerShip.Update (p : PlayerShip) (k : FrameInput) (dt : ℚ) : PlayerShip :=
  (p.move k dt).cool dt

/-- The heat bookkeeping of one emitted shot (the `OVERHEAT` lines of the shot loop). -/
def PlayerShip.heatShot (p : PlayerShip) : PlayerShip :=
  let p : PlayerShip :=
    { p with overheat := p.overheat + OVERHEAT_PER_SHOT, overheatCooldown := OVERHEAT_COOLDOWN_DELAY }
  if p.overheat ≥ OVERHEAT_MAX then { p with overheated := true, overheat := OVERHEAT_MAX }
  else p

/-! ## Application -/

/-- The variables of `Application::Run` and the members of `Application` that the main
loop reads and writes. -/
structure Game where
  player : PlayerShip
  spawnTimer : ℚ
  spawnInterval : ℚ
  currentWeapon : WeaponType
  shotTimer : ℚ
  score : ℤ
  asteroids : List Asteroid
  projectiles : List Projectile
  currentShape : ℤ
deriving DecidableEq, Repr

/-- A player as `Run` creates it: the constructor followed by the three assignments to
`overheat`, `overheated` and `overheatCooldown`. -/
def freshPlayer (texW : ℤ) : PlayerShip :=
  { PlayerShip.new C_WIDTH C_HEIGHT texW with
    overheat := 0, overheated := false, overheatCooldown := 0 }

/-- The state of `Run` when the main loop is entered; `texW` is the width of the ship
texture and `u` the quotient `rand() / RAND_MAX` of the first spawn interval. -/
def Game.start (texW : ℤ) (u : ℚ) : Game :=
  { player := freshPlayer texW
    spawnTimer := 0
    spawnInterval := Utils.RandomFloat u C_SPAWN_MIN C_SPAWN_MAX
    currentWeapon := WeaponType.LASER
    shotTimer := 0
    score := 0
    asteroids := []
    projectiles := []
    currentShape := AsteroidShape.RANDOM }

/-- The first two statements of the loop body: `spawnTimer += dt; player->Update(dt);`. -/
def updateStep (k : FrameInput) (g : Game) : Game :=
  { g with spawnTimer := g.spawnTimer + k.dt, player := g.player.Update k k.dt }

/-- The block `Restart logic`. -/
def restartStep (k : FrameInput) (g : Game) : Game :=
  if !g.player.IsAlive ∧ k.keyR then
    { g with
      player := freshPlayer k.texW
      asteroids := []
      projectiles := []
      spawnTimer := 0
      spawnInterval := Utils.RandomFloat k.uRestart C_SPAWN_MIN C_SPAWN_MAX
      score := 0 }
  else g

/-- The block `Asteroid shape switch`. -/
def shapeStep (k : FrameInput) (g : Game) : Game :=
  let g := if k.keyOne then { g with currentShape := AsteroidShape.TRIANGLE } else g
  let g := if k.keyTwo then { g with currentShape := AsteroidShape.SQUARE } else g
  let g := if k.keyThree then { g with currentShape := AsteroidShape.PENTAGON } else g
  let g := if k.keyFour then { g with currentShape := AsteroidShape.RANDOM } else g
  let g := if k.keyFive then { g with currentShape := 6 } else g
  g

/-- The block `Weapon switch`. -/
def weaponStep (k : FrameInput) (g : Game) : Game :=
  if k.keyTab then
    { g with
      currentWeapon := WeaponType.ofInt ((g.currentWeapon.toInt + 1) % WeaponType.COUNT.toInt) }
  else g

/-- The body of the loop `while (shotTimer >= interval)`. -/
def shotBody (interval projSpeed : ℚ) (g : Game) : Game :=
  let p := g.player.GetPosition
  let p : Vector2 := { p with y := p.y - g.player.GetRadius }
  { g with
    projectiles := g.projectiles ++ [MakeProjectile g.currentWeapon p projSpeed]
    shotTimer := g.shotTimer - interval
    player := g.player.heatShot }

set_option linter.unusedVariables false in
/-- The loop `while (shotTimer >= interval)`.  For a positive `interval` the loop ends
after `⌊shotTimer / interval⌋` rounds; for `interval ≤ 0` (which no ship built by the
constructor has) the C++ loop has no exit in exact arithmetic, and the model returns the
state unchanged. -/
def shotLoop (interval projSpeed : ℚ) (g : Game) : Game :=
  if more : 0 < interval ∧ g.shotTimer ≥ interval then
    shotLoop interval projSpeed (shotBody interval projSpeed g)
  else g
termination_by ⌊g.shotTimer / interval⌋.toNat
decreasing_by
  obtain ⟨hpos, hge⟩ := more
  have hsub : (g.shotTimer - interval) / interval = g.shotTimer / interval - 1 := by
    field_simp
  have hone : (1 : ℚ) ≤ g.shotTimer / interval := by
    rw [le_div_iff₀ hpos]
    simpa using hge
  have hfloor : (1 : ℤ) ≤ ⌊g.shotTimer / interval⌋ := Int.le_floor.mpr (by simpa using hone)
  show ⌊(g.shotTimer - interval) / interval⌋.toNat < ⌊g.shotTimer / interval⌋.toNat
  rw [hsub, Int.floor_sub_one]
  omega

/-- The `if`/`else` of the block `Shooting`. -/
def shootingStep (k : FrameInput) (g : Game) : Game :=
  if g.player.IsAlive ∧ k.keySpace ∧ g.player.CanShoot then
    let g := { g with shotTimer := g.shotTimer + k.dt }
    let interval := 1 / g.player.GetFireRate g.currentWeapon
    let projSpeed := g.player.GetSpacing g.currentWeapon * g.player.GetFireRate g.currentWeapon
    shotLoop interval projSpeed g
  else
    let maxInterval := 1 / g.player.GetFireRate g.currentWeapon
    if g.shotTimer > maxInterval then { g with shotTimer := fmodf g.shotTimer maxInterval }
    else g

/-- The projectiles that the `for` loop of the panic skill pushes, in order. -/
def panicRing (m : MathFns) (center : Vector2) : List Projectile :=
  let numBullets : ℕ := 50
  let angleStep : ℚ := 2 * m.PI / numBullets
  let bulletSpeed : ℚ := 600
  (List.range numBullets).map fun (i : ℕ) =>
    let angle : ℚ := (i : ℚ) * angleStep
    let dir : Vector2 := ⟨m.cosf angle, m.sinf angle⟩
    let pos := center
    let vel := Vector2Scale dir bulletSpeed
    Projectile.newTextured pos vel 10 WeaponType.BULLET

/-- The condition of the panic skill. -/
def panicTriggered (k : FrameInput) (g : Game) : Bool :=
  g.player.IsAlive && g.player.overheated && k.keyE && !g.player.overheatSkillUsed

/-- The last `if` of the block `Shooting`: the panic skill. -/
def panicStep (m : MathFns) (k : FrameInput) (g : Game) : Game :=
  if panicTriggered k g then
    { g with
      projectiles := g.projectiles ++ panicRing m g.player.GetPosition
      player := { g.player with overheatSkillUsed := true } }
  else g

/-- The block `Spawn asteroids`. -/
def spawnStep (m : MathFns) (k : FrameInput) (g : Game) : Game :=
  if g.spawnTimer ≥ g.spawnInterval ∧ g.asteroids.length < MAX_AST then
    { g with
      asteroids :=
        g.asteroids ++ [MakeAsteroid m C_WIDTH C_HEIGHT g.currentShape k.rRaw k.typeRaw k.draws]
      spawnTimer := 0
      spawnInterval := Utils.RandomFloat k.uSpawn C_SPAWN_MIN C_SPAWN_MAX }
  else g

/-- The block `Update projectiles`: `remove_if` calls `Update` on every projectile in
order and keeps, moved, those for which it returns `false`. -/
def updateProjectiles (dt : ℚ) (ps : List Projectile) : List Projectile :=
  ps.filterMap fun p => if (p.Update dt).2 then none else some (p.Update dt).1

/-- The collision test of the projectile-asteroid loop. -/
def hits (p : Projectile) (a : Asteroid) : Bool :=
  distanceLess p.GetPosition a.GetPosition (p.GetRadius + a.GetRadius)

/-- The inner `for` loop over the asteroids for one projectile: the first asteroid in
range, if any, and the asteroid vector after `erase`. -/
def findHit (p : Projectile) : List Asteroid → Option (Asteroid × List Asteroid)
  | [] => none
  | a :: rest =>
    if hits p a then some (a, rest)
    else
      match findHit p rest with
      | some (b, rest1) => some (b, a :: rest1)
      | none => none

/-- The loop `Projectile-Asteroid collisions`: the projectiles and asteroids left and the
new score. -/
def projectileAsteroidPass :
    List Projectile → List Asteroid → ℤ → List Projectile × List Asteroid × ℤ
  | [], asts, score => ([], asts, score)
  | p :: ps, asts, score =>
    match findHit p asts with
    | some (a, asts1) => projectileAsteroidPass ps asts1 (score + 10 * a.GetSize)
    | none =>
      let r := projectileAsteroidPass ps asts score
      (p :: r.1, r.2.1, r.2.2)

/-- The lambda `remove_collision`: the player and the asteroid after the call, and the
returned flag (`true`: remove the asteroid). -/
def remove_collision (m : MathFns) (dt : ℚ) (player : PlayerShip) (a : Asteroid) :
    PlayerShip × Asteroid × Bool :=
  if player.IsAlive ∧
      distanceLess player.GetPosition a.GetPosition (player.GetRadius + a.GetRadius) then
    (player.TakeDamage a.GetDamage, a, true)
  else
    let r := a.Update m player.GetPosition dt
    if !r.2 then (player, r.1, true) else (player, r.1, false)

/-- The block `Asteroid-Ship collisions`: `remove_if` calls `remove_collision` on every
asteroid in order and keeps those for which it returns `false`. -/
def asteroidShipPass (m : MathFns) (dt : ℚ) :
    PlayerShip → List Asteroid → PlayerShip × List Asteroid
  | player, [] => (player, [])
  | player, a :: rest =>
    let r := remove_collision m dt player a
    let r2 := asteroidShipPass m dt r.1 rest
    (r2.1, if r.2.2 then r2.2 else r.2.1 :: r2.2)

/-- The two collision blocks and the projectile update, on the whole state. -/
def resolveStep (m : MathFns) (k : FrameInput) (g : Game) : Game :=
  let ps := updateProjectiles k.dt g.projectiles
  let r := projectileAsteroidPass ps g.asteroids g.score
  let r2 := asteroidShipPass m k.dt g.player r.2.1
  { g with projectiles := r.1, score := r.2.2, player := r2.1, asteroids := r2.2 }

/-- One iteration of the main loop (rendering left out). -/
def frame (m : MathFns) (k : FrameInput) (g : Game) : Game :=
  resolveStep m k (spawnStep m k (panicStep m k (shootingStep k (weaponStep k (shapeStep k
    (restartStep k (updateStep k g)))))))

/-- The state after the frames with inputs `ks`, in order. -/
def run (m : MathFns) (ks : List FrameInput) (g : Game) : Game :=
  ks.foldl (fun s k => frame m k s) g

/-- The states that the main loop can be in at the start of an iteration: the frame time
is never negative. -/
inductive Reachable (m : MathFns) : Game → Prop where
  | start (texW : ℤ) (u : ℚ) : Reachable m (Game.start texW u)
  | step (k : FrameInput) (g : Game) : Reachable m g → 0 ≤ k.dt → Reachable m (frame m k g)

/-! ## Auxiliary definitions of the specification -/

/-- The heat of the player lies in `[0, 100]`. -/
def HeatInRange (p : PlayerShip) : Prop := 0 ≤ p.overheat ∧ p.overheat ≤ 100

/-- The shot that the loop body pushes in state `g`. -/
def nextShot (projSpeed : ℚ) (g : Game) : Projectile :=
  MakeProjectile g.currentWeapon
    ⟨g.player.GetPosition.x, g.player.GetPosition.y - g.player.GetRadius⟩ projSpeed

/-- The number of rounds of the shot loop entered with timer `t`. -/
def shotCount (interval t : ℚ) : ℕ := ⌊t / interval⌋.toNat

/-- What holds of the player in every state the main loop reaches. -/
structure PlayerInv (p : PlayerShip) : Prop where
  heat : HeatInRange p
  alive_iff : p.alive = true ↔ 0 < p.hp
  rateLaser : p.fireRateLaser = 18
  rateBullet : p.fireRateBullet = 22
  below : p.overheated = false → p.overheat < 100

/-- A property of the player that every operation the main loop performs on the player
preserves. -/
structure PlayerClosed (P : PlayerShip → Prop) : Prop where
  fresh : ∀ texW : ℤ, P (freshPlayer texW)
  update : ∀ (p : PlayerShip) (k : FrameInput) (dt : ℚ), 0 ≤ dt → P p → P (p.Update k dt)
  shot : ∀ p : PlayerShip, P p → P p.heatShot
  damage : ∀ (p : PlayerShip) (d : ℤ), P p → P (p.TakeDamage d)
  skill : ∀ p : PlayerShip, P p → P { p with overheatSkillUsed := true }

/-- The player states that arise from a freshly created player by the operations of the
main loop, in any order: `Update` with a non-negative frame time, the heat bookkeeping of a
shot, `TakeDamage`, and the use of the panic skill. -/
inductive PlayerReachable : PlayerShip → Prop where
  | fresh (texW : ℤ) : PlayerReachable (freshPlayer texW)
  | update (p : PlayerShip) (k : FrameInput) (dt : ℚ) :
      0 ≤ dt → PlayerReachable p → PlayerReachable (p.Update k dt)
  | shot (p : PlayerShip) : PlayerReachable p → PlayerReachable p.heatShot
  | damage (p : PlayerShip) (d : ℤ) : PlayerReachable p → PlayerReachable (p.TakeDamage d)
  | skill (p : PlayerShip) :
      PlayerReachable p → PlayerReachable { p with overheatSkillUsed := true }

/-- Stand-ins for the irrational functions, used where a statement is evaluated on
concrete data. -/
def sampleMath : MathFns :=
  { cosf := fun _ => 1
    sinf := fun _ => 0
    PI := 22 / 7
    Vector2Normalize := fun v => v }

/-- The input of a frame of length `dt` in which no key is down and every random number
is zero. -/
def idleInput (dt : ℚ) : FrameInput :=
  { dt := dt
    keyW := false, keyS := false, keyA := false, keyD := false, keySpace := false
    keyR := false, keyOne := false, keyTwo := false, keyThree := false, keyFour := false
    keyFive := false, keyTab := false, keyE := false
    texW := 256, uRestart := 0, uSpawn := 0, rRaw := 0, typeRaw := 0
    draws :=
      { sizeRaw := 0, edgeRaw := 0, uEdge := 0, uAng := 0, uRad := 0, uSpeed := 0,
        uRotSpeed := 0, uRot := 0 } }

/-- A laser shot at `pos`, as `MakeProjectile` creates it with the projectile speed of the
laser (`spacing * fireRate = 40 * 18`). -/
def laserAt (pos : Vector2) : Projectile := MakeProjectile WeaponType.LASER pos 720

/-- A triangle asteroid of size multiplier `size` at `pos`, moving down at `SPEED_MIN`. -/
def triangleAt (pos : Vector2) (size : ℤ) : Asteroid :=
  { cls := AsteroidClass.TriangleAsteroid
    transform := { position := pos, rotation := 0 }
    physics := { velocity := ⟨0, 125⟩, rotationSpeed := 50 }
    render := { size := size }
    baseDamage := 5 }

/-- A square asteroid of size multiplier `size` at `pos`, moving down at `SPEED_MIN`. -/
def squareAt (pos : Vector2) (size : ℤ) : Asteroid :=
  { cls := AsteroidClass.SquareAsteroid
    transform := { position := pos, rotation := 0 }
    physics := { velocity := ⟨0, 125⟩, rotationSpeed := 50 }
    render := { size := size }
    baseDamage := 10 }

/-- The input of a frame of length `dt` in which only the fire key is down. -/
def fireInput (dt : ℚ) : FrameInput := { idleInput dt with keySpace := true }

/-- The state in which the block `Shooting` of a frame is entered. -/
def beforeShooting (k : FrameInput) (g : Game) : Game :=
  weaponStep k (shapeStep k (restartStep k (updateStep k g)))

/-- The number of projectiles that the `if`/`else` of the block `Shooting` (the fire
control) pushes in the frame with input `k` that starts in state `g`. -/
def shotsEmitted (k : FrameInput) (g : Game) : ℕ :=
  (shootingStep k (beforeShooting k g)).projectiles.length -
    (beforeShooting k g).projectiles.length

/-- The number of projectiles that the fire control pushes during the frames `ks`. -/
def totalShots (m : MathFns) : List FrameInput → Game → ℕ
  | [], _ => 0
  | k :: ks, g => shotsEmitted k g + totalShots m ks (frame m k g)

/-- Fire is held during the frames `ks` at fire interval `interval`: in every frame the
frame time is non-negative and, when the block `Shooting` is entered, the player is alive,
the fire key is down, the player can shoot, and `1 / GetFireRate(currentWeapon)` is
`interval`. -/
def fireHeld (m : MathFns) (interval : ℚ) : List FrameInput → Game → Bool
  | [], _ => true
  | k :: ks, g =>
    decide (0 ≤ k.dt) &&
    (beforeShooting k g).player.IsAlive && k.keySpace && (beforeShooting k g).player.CanShoot &&
    decide (1 / (beforeShooting k g).player.GetFireRate (beforeShooting k g).currentWeapon
      = interval) &&
    fireHeld m interval ks (frame m k g)

/-- The base damage that the constructor of each asteroid class assigns. -/
def baseDamageOf : AsteroidClass → ℤ
  | AsteroidClass.TriangleAsteroid => 5
  | AsteroidClass.SquareAsteroid => 10
  | AsteroidClass.PentagonAsteroid => 15
  | AsteroidClass.ChasingAsteroid => 20

/-- The fire key is held during the frames `ks`: every frame time is non-negative, and at
the start of every frame the player is alive and the fire key is down. -/
def fireKeyHeld (m : MathFns) : List FrameInput → Game → Bool
  | [], _ => true
  | k :: ks, g =>
    decide (0 ≤ k.dt) && g.player.alive && k.keySpace && fireKeyHeld m ks (frame m k g)

/-- The state of the weapon after `n` shots of uninterrupted fire, none of which has
tripped the overheated flag: heat is `3 n`, and while heat is positive the cooldown delay
has not elapsed. -/
structure FireInv (g : Game) (n : ℕ) : Prop where
  inv : PlayerInv g.player
  heat : g.player.overheat = 3 * (n : ℚ)
  cool : g.player.overheated = false
  timer0 : 0 ≤ g.shotTimer
  timer1 : g.shotTimer < 1 / 18
  delay : 0 < g.player.overheat → 1 ≤ g.player.overheatCooldown + g.shotTimer

/-- The state in which the `if` of the panic skill is evaluated in a frame. -/
def beforePanic (k : FrameInput) (g : Game) : Game := shootingStep k (beforeShooting k g)

/-- The panic skill is triggered in the frame with input `k` that starts in state `g`. -/
def panicFires (k : FrameInput) (g : Game) : Bool := panicTriggered k (beforePanic k g)

/-- The `Update` of the frame starts overheated, brings heat to 0 and clears `overheated`. -/
def updateClears (k : FrameInput) (g : Game) : Bool :=
  g.player.overheated && !(g.player.Update k k.dt).overheated &&
    decide ((g.player.Update k k.dt).overheat = 0)

/-- The restart block of the frame replaces the player. -/
def restarts (k : FrameInput) (g : Game) : Bool :=
  !(updateStep k g).player.IsAlive && k.keyR

/-- Some frame of `ks`, run from `g`, has an `Update` that clears `overheated`. -/
def anyUpdateClears (m : MathFns) : List FrameInput → Game → Bool
  | [], _ => false
  | k :: ks, g => updateClears k g || anyUpdateClears m ks (frame m k g)

/-- Some frame of `ks`, run from `g`, replaces the player by a restart. -/
def anyRestart (m : MathFns) : List FrameInput → Game → Bool
  | [], _ => false
  | k :: ks, g => restarts k g || anyRestart m ks (frame m k g)

/-- What the random source delivers for a large asteroid in the middle of the top edge. -/
def topEdgeDraws : AsteroidDraws :=
  { sizeRaw := 1, edgeRaw := 0, uEdge := 1 / 2, uAng := 0, uRad := 0, uSpeed := 0,
    uRotSpeed := 0, uRot := 0 }

/-- A frame of 2 s with the fire key and the up key held; the asteroid that spawns is a
large chasing asteroid in the middle of the top edge. -/
def burstFrame : FrameInput :=
  { fireInput 2 with keyW := true, rRaw := 0, draws := topEdgeDraws }

/-- A frame of 1/60 s in which the panic key is pressed. -/
def panicFrame : FrameInput := { idleInput (1 / 60) with keyE := true }

/-- A frame of 1/2 s without keys in which a large chasing asteroid spawns in the middle of
the top edge. -/
def hitFrame : FrameInput := { idleInput (1 / 2) with rRaw := 0, draws := topEdgeDraws }

/-- A frame of 2 s in which the restart key and the panic key are pressed and the fire key
is held. -/
def restartFrame : FrameInput :=
  { fireInput 2 with keyR := true, keyE := true }

/-- The state at the start of the game with the spawn timer at 1 s and `n` medium triangle
asteroids alive. -/
def crowdedGame (n : ℕ) : Game :=
  { Game.start 256 0 with
    spawnTimer := 1
    asteroids := List.replicate n (triangleAt ⟨100, 100⟩ 2) }

/-- The pairs of a projectile and the asteroid erased together with it by the loop
`Projectile-Asteroid collisions`, in the order in which the loop erases them. -/
def passPairs : List Projectile → List Asteroid → List (Projectile × Asteroid)
  | [], _ => []
  | p :: ps, asts =>
    match findHit p asts with
    | some (a, asts1) => (p, a) :: passPairs ps asts1
    | none => passPairs ps asts

/-- The variables of the loop `Projectile-Asteroid collisions`, with the projectile vector
split at the iterator `pit`: `visited` is the range `[begin, pit)` and `pending` the range
`[pit, end)`. -/
structure PassState where
  visited : List Projectile
  pending : List Projectile
  asteroids : List Asteroid
  score : ℤ
deriving DecidableEq, Repr

/-- One round of the outer `for` loop of `Projectile-Asteroid collisions`: `none` when
`pit == projectiles.end()`; otherwise the inner loop runs, and either both `erase` calls
are made (the iterator then points at the next projectile) or `++pit` is. -/
def passRound (s : PassState) : Option PassState :=
  match s.pending with
  | [] => none
  | p :: rest =>
    match findHit p s.asteroids with
    | some (a, asts1) =>
      some
        { visited := s.visited
          pending := rest
          asteroids := asts1
          score := s.score + 10 * a.GetSize }
    | none =>
      some
        { visited := s.visited ++ [p]
          pending := rest
          asteroids := s.asteroids
          score := s.score }

/-- The outer `for` loop of `Projectile-Asteroid collisions`, run for at most `fuel` rounds
after the first exit test: the state in which the loop exits, or `none` when the rounds
allowed are used up before the loop exits. -/
def passLoop : ℕ → PassState → Option PassState
  | 0, s =>
    match passRound s with
    | none => some s
    | some _ => none
  | fuel + 1, s =>
    match passRound s with
    | none => some s
    | some s1 => passLoop fuel s1

/-- Rounding of a rational to the nearest integer, a tie going to the even one. -/
def roundHalfEven (x : ℚ) : ℤ :=
  if x - ⌊x⌋ < 1 / 2 then ⌊x⌋
  else if x - ⌊x⌋ > 1 / 2 then ⌊x⌋ + 1
  else if ⌊x⌋ % 2 = 0 then ⌊x⌋ else ⌊x⌋ + 1

/-- The spacing of the `float` values (IEEE 754 binary32) around a magnitude `x`, found by
halving `q` at most `n` times until `q * 2^23 ≤ x`.  Started with `n = 253` and
`q = 2^104` it returns `2^(e - 23)` for `2^e ≤ x < 2^(e + 1)` with `-126 ≤ e ≤ 127`, and the
subnormal spacing `2^(-149)` for `x < 2^(-126)`. -/
def floatQuantum (x : ℚ) : ℕ → ℚ → ℚ
  | 0, q => q
  | n + 1, q => if q * 2 ^ 23 ≤ x then q else floatQuantum x n (q / 2)

/-- Rounding of a rational to the nearest `float` (IEEE 754 binary32: 24 significant bits,
least normal exponent -126, ties to even): the nearest multiple of the spacing around `x`.
Overflow to infinity is not modelled. -/
def roundF32 (x : ℚ) : ℚ :=
  (roundHalfEven (x / floatQuantum |x| 253 (2 ^ 104)) : ℚ) * floatQuantum |x| 253 (2 ^ 104)

/-- The accumulator of the loop `while (shotTimer >= interval)` when the result of
`shotTimer -= interval` is rounded by `rnd`: the number of rounds (shots) and the
accumulator at the exit, or `none` when `fuel` rounds do not reach the exit.  With `rnd`
the identity this is the accumulator of `shotLoop`. -/
def roundedShotLoop (rnd : ℚ → ℚ) (interval : ℚ) : ℕ → ℚ → Option (ℕ × ℚ)
  | 0, t => if t ≥ interval then none else some (0, t)
  | fuel + 1, t =>
    if t ≥ interval then
      match roundedShotLoop rnd interval fuel (rnd (t - interval)) with
      | some (n, t1) => some (n + 1, t1)
      | none => none
    else some (0, t)

/-- The accumulator over a sequence of frames in each of which the firing branch of the
block `Shooting` is taken, every float operation rounded by `rnd`:
`shotTimer += dt; interval = 1.f / fireRate;` and the shot loop.  The result is the total
number of shots and the accumulator after the last frame. -/
def roundedFiring (rnd : ℚ → ℚ) (fireRate : ℚ) (fuel : ℕ) : List ℚ → ℚ → Option (ℕ × ℚ)
  | [], t => some (0, t)
  | dt :: dts, t =>
    match roundedShotLoop rnd (rnd (1 / fireRate)) fuel (rnd (t + dt)) with
    | some (n, t1) =>
      match roundedFiring rnd fireRate fuel dts t1 with
      | some (n2, t2) => some (n + n2, t2)
      | none => none
    | none => none

/-! ## The model of the external functions -/

/-- The test `distanceLess` is the comparison of the Euclidean distance, a real square
root, with `r`. -/
theorem distanceLess_iff_sqrt (a b : Vector2) (r : ℚ) :
    distanceLess a b r = true ↔
      Real.sqrt (((a.x - b.x) ^ 2 + (a.y - b.y) ^ 2 : ℚ) : ℝ) < (r : ℝ) := by
  have hsq : ((a.x - b.x) ^ 2 + (a.y - b.y) ^ 2 : ℚ) = Vector2DistanceSqr a b := by
    unfold Vector2DistanceSqr
    ring
  rw [hsq]
  simp only [distanceLess, Bool.and_eq_true, decide_eq_true_eq]
  constructor
  · rintro ⟨hr, hd⟩
    have hr2 : (0 : ℝ) < r := by exact_mod_cast hr
    rw [Real.sqrt_lt' hr2]
    have h3 : ((Vector2DistanceSqr a b : ℚ) : ℝ) < ((r * r : ℚ) : ℝ) := by exact_mod_cast hd
    rw [pow_two]
    exact_mod_cast h3
  · intro h
    have hr2 : (0 : ℝ) < r := lt_of_le_of_lt (Real.sqrt_nonneg _) h
    have hr : 0 < r := by exact_mod_cast hr2
    refine ⟨hr, ?_⟩
    rw [Real.sqrt_lt' hr2, pow_two] at h
    exact_mod_cast h

/-- The value that models `GetRandomValue(lo, hi)` lies in `[lo, hi]`. -/
theorem GetRandomValue_range (raw : ℕ) (lo hi : ℤ) (h : lo ≤ hi) :
    lo ≤ GetRandomValue raw lo hi ∧ GetRandomValue raw lo hi ≤ hi := by
  unfold GetRandomValue
  have h1 : 0 ≤ (raw : ℤ) % (hi - lo + 1) := Int.emod_nonneg _ (by omega)
  have h2 : (raw : ℤ) % (hi - lo + 1) < hi - lo + 1 := Int.emod_lt_of_pos _ (by omega)
  omega

/-! ## The heat of the weapon -/

theorem move_overheat (p : PlayerShip) (k : FrameInput) (dt : ℚ) :
    (p.move k dt).overheat = p.overheat ∧
    (p.move k dt).overheatCooldown = p.overheatCooldown ∧
    (p.move k dt).overheated = p.overheated ∧
    (p.move k dt).overheatSkillUsed = p.overheatSkillUsed := by
  unfold PlayerShip.move
  split_ifs <;> simp

theorem cool_heatInRange (p : PlayerShip) (dt : ℚ) (h : HeatInRange p) (hdt : 0 ≤ dt) :
    HeatInRange (p.cool dt) := by
  obtain ⟨h0, h1⟩ := h
  have hm : (0 : ℚ) ≤ max 0 (p.overheat - 30 * dt) := le_max_left _ _
  have hm2 : max 0 (p.overheat - 30 * dt) ≤ 100 := max_le (by norm_num) (by nlinarith)
  unfold PlayerShip.cool HeatInRange
  simp only [OVERHEAT_MAX, OVERHEAT_COOLDOWN_RATE]
  split_ifs <;> simp_all

theorem Update_heatInRange (p : PlayerShip) (k : FrameInput) (dt : ℚ) (h : HeatInRange p)
    (hdt : 0 ≤ dt) : HeatInRange (p.Update k dt) := by
  unfold PlayerShip.Update
  apply cool_heatInRange _ _ _ hdt
  have := move_overheat p k dt
  unfold HeatInRange at *
  rw [this.1]
  exact h

theorem heatShot_heatInRange (p : PlayerShip) (h : HeatInRange p) :
    HeatInRange p.heatShot := by
  obtain ⟨h0, h1⟩ := h
  unfold PlayerShip.heatShot HeatInRange
  simp only [OVERHEAT_MAX, OVERHEAT_PER_SHOT]
  split_ifs with hge
  · simp
  · simp only [not_le] at hge
    exact ⟨by show (0 : ℚ) ≤ p.overheat + 3; linarith,
      by show p.overheat + 3 ≤ (100 : ℚ); linarith⟩

/-! ## The shot loop -/

theorem heatShot_toShip (p : PlayerShip) :
    p.heatShot.toShip = p.toShip ∧ p.heatShot.textureWidth = p.textureWidth ∧
    p.heatShot.scale = p.scale ∧ p.heatShot.overheatSkillUsed = p.overheatSkillUsed := by
  simp only [PlayerShip.heatShot]
  split_ifs <;> simp

theorem heatShot_iterate_toShip (n : ℕ) (p : PlayerShip) :
    (PlayerShip.heatShot^[n] p).toShip = p.toShip ∧
    (PlayerShip.heatShot^[n] p).textureWidth = p.textureWidth ∧
    (PlayerShip.heatShot^[n] p).scale = p.scale ∧
    (PlayerShip.heatShot^[n] p).overheatSkillUsed = p.overheatSkillUsed := by
  induction n generalizing p with
  | zero => simp
  | succ n ih =>
    rw [Function.iterate_succ_apply]
    have h1 := ih p.heatShot
    have h2 := heatShot_toShip p
    exact ⟨h1.1.trans h2.1, h1.2.1.trans h2.2.1, h1.2.2.1.trans h2.2.2.1,
      h1.2.2.2.trans h2.2.2.2⟩

theorem shotBody_iterate (interval projSpeed : ℚ) (n : ℕ) (g : Game) :
    (shotBody interval projSpeed)^[n] g =
      { g with
        projectiles := g.projectiles ++ List.replicate n (nextShot projSpeed g)
        shotTimer := g.shotTimer - n * interval
        player := PlayerShip.heatShot^[n] g.player } := by
  induction n generalizing g with
  | zero => simp
  | succ n ih =>
    rw [Function.iterate_succ_apply, ih]
    have h2 := heatShot_toShip g.player
    have hn : nextShot projSpeed (shotBody interval projSpeed g) = nextShot projSpeed g := by
      simp [nextShot, shotBody, PlayerShip.GetRadius, Ship.GetPosition, h2.1, h2.2.1, h2.2.2.1]
    rw [hn]
    simp only [shotBody, Function.iterate_succ_apply, List.append_assoc, List.singleton_append,
      ← List.replicate_succ, nextShot]
    congr 1
    push_cast
    ring

theorem shotLoop_eq_iterate (interval projSpeed : ℚ) (hI : 0 < interval) (n : ℕ) :
    ∀ g : Game, ⌊g.shotTimer / interval⌋.toNat = n →
      shotLoop interval projSpeed g = (shotBody interval projSpeed)^[n] g := by
  induction n with
  | zero =>
    intro g hn
    have hlt : g.shotTimer < interval := by
      by_contra hge
      have hone : (1 : ℚ) ≤ g.shotTimer / interval := by
        rw [le_div_iff₀ hI]
        simpa using not_lt.mp hge
      have : (1 : ℤ) ≤ ⌊g.shotTimer / interval⌋ := Int.le_floor.mpr (by simpa using hone)
      omega
    rw [shotLoop]
    simp [not_le.mpr hlt]
  | succ n ih =>
    intro g hn
    have hfl : (1 : ℤ) ≤ ⌊g.shotTimer / interval⌋ := by omega
    have hone : (1 : ℚ) ≤ g.shotTimer / interval := by
      have := Int.le_floor.mp hfl
      simpa using this
    have hge : interval ≤ g.shotTimer := by
      rw [le_div_iff₀ hI] at hone
      simpa using hone
    have hsub : (g.shotTimer - interval) / interval = g.shotTimer / interval - 1 := by
      field_simp
    have hn2 : ⌊(shotBody interval projSpeed g).shotTimer / interval⌋.toNat = n := by
      show ⌊(g.shotTimer - interval) / interval⌋.toNat = n
      rw [hsub, Int.floor_sub_one]
      omega
    rw [shotLoop, dif_pos ⟨hI, hge⟩, ih _ hn2, Function.iterate_succ_apply]

theorem shotLoop_closed (interval projSpeed : ℚ) (hI : 0 < interval) (g : Game) :
    shotLoop interval projSpeed g =
      { g with
        projectiles :=
          g.projectiles ++ List.replicate (shotCount interval g.shotTimer) (nextShot projSpeed g)
        shotTimer := g.shotTimer - (shotCount interval g.shotTimer : ℕ) * interval
        player := PlayerShip.heatShot^[shotCount interval g.shotTimer] g.player } := by
  rw [shotLoop_eq_iterate interval projSpeed hI _ g rfl, shotBody_iterate]
  rfl

/-! ## What the steps of a frame do to the player -/

theorem TakeDamage_fields (s : Ship) (dmg : ℤ) :
    (s.TakeDamage dmg).transform = s.transform ∧ (s.TakeDamage dmg).speed = s.speed ∧
    (s.TakeDamage dmg).fireRateLaser = s.fireRateLaser ∧
    (s.TakeDamage dmg).fireRateBullet = s.fireRateBullet ∧
    (s.TakeDamage dmg).spacingLaser = s.spacingLaser ∧
    (s.TakeDamage dmg).spacingBullet = s.spacingBullet := by
  simp only [Ship.TakeDamage]
  split_ifs <;> simp

theorem TakeDamage_alive_iff (s : Ship) (dmg : ℤ) (h : s.alive = true ↔ 0 < s.hp) :
    (s.TakeDamage dmg).alive = true ↔ 0 < (s.TakeDamage dmg).hp := by
  simp only [Ship.TakeDamage]
  split_ifs with h1 h2
  · exact h
  · simp only [Bool.false_eq_true, false_iff, not_lt]
    exact h2
  · simp only [not_le] at h2
    have h3 : s.alive = true := by simpa using h1
    simp [h3, h2]

theorem remove_collision_player (m : MathFns) (dt : ℚ) (player : PlayerShip) (a : Asteroid) :
    (remove_collision m dt player a).1 = player ∨
      (remove_collision m dt player a).1 = player.TakeDamage a.GetDamage := by
  simp only [remove_collision]
  split_ifs <;> simp

theorem asteroidShipPass_player (m : MathFns) (dt : ℚ) (P : PlayerShip → Prop)
    (hP : ∀ (p : PlayerShip) (d : ℤ), P p → P (p.TakeDamage d)) (asts : List Asteroid) :
    ∀ player : PlayerShip, P player → P (asteroidShipPass m dt player asts).1 := by
  induction asts with
  | nil => intro player h; simpa [asteroidShipPass] using h
  | cons a rest ih =>
    intro player h
    simp only [asteroidShipPass]
    apply ih
    rcases remove_collision_player m dt player a with h1 | h1 <;> rw [h1]
    · exact h
    · exact hP _ _ h

theorem cool_toShip (p : PlayerShip) (dt : ℚ) :
    (p.cool dt).toShip = p.toShip ∧ (p.cool dt).textureWidth = p.textureWidth ∧
    (p.cool dt).scale = p.scale := by
  simp only [PlayerShip.cool]
  split_ifs <;> simp

theorem move_fields (p : PlayerShip) (k : FrameInput) (dt : ℚ) :
    (p.move k dt).hp = p.hp ∧ (p.move k dt).alive = p.alive ∧
    (p.move k dt).fireRateLaser = p.fireRateLaser ∧
    (p.move k dt).fireRateBullet = p.fireRateBullet := by
  unfold PlayerShip.move
  split_ifs <;> simp

theorem Update_toShip (p : PlayerShip) (k : FrameInput) (dt : ℚ) :
    (p.Update k dt).hp = p.hp ∧ (p.Update k dt).alive = p.alive ∧
    (p.Update k dt).fireRateLaser = p.fireRateLaser ∧
    (p.Update k dt).fireRateBullet = p.fireRateBullet := by
  have hc := cool_toShip (p.move k dt) dt
  have hm := move_fields p k dt
  simp only [PlayerShip.Update, hc.1]
  exact hm

theorem cool_hot_overheated (p : PlayerShip) (dt : ℚ) (h : 100 ≤ (p.cool dt).overheat) :
    (p.cool dt).overheated = true := by
  revert h
  simp only [PlayerShip.cool, OVERHEAT_MAX, OVERHEAT_COOLDOWN_RATE]
  split_ifs <;> simp_all <;> linarith

theorem Update_heat_eq_cool (p : PlayerShip) (k : FrameInput) (dt : ℚ) :
    ∃ q : PlayerShip, p.Update k dt = q.cool dt ∧ q.overheat = p.overheat ∧
      q.overheated = p.overheated ∧ q.overheatSkillUsed = p.overheatSkillUsed :=
  ⟨p.move k dt, rfl, (move_overheat p k dt).1, (move_overheat p k dt).2.2.1,
    (move_overheat p k dt).2.2.2⟩

theorem freshPlayer_inv (texW : ℤ) : PlayerInv (freshPlayer texW) where
  heat := by simp [HeatInRange, freshPlayer, PlayerShip.new, Ship.new]
  alive_iff := by simp [freshPlayer, PlayerShip.new, Ship.new]
  rateLaser := rfl
  rateBullet := rfl
  below := fun _ => by simp [freshPlayer, PlayerShip.new, Ship.new]

theorem Update_inv (p : PlayerShip) (k : FrameInput) (dt : ℚ) (hdt : 0 ≤ dt)
    (h : PlayerInv p) : PlayerInv (p.Update k dt) where
  heat := Update_heatInRange p k dt h.heat hdt
  alive_iff := by
    rw [(Update_toShip p k dt).1, (Update_toShip p k dt).2.1]
    exact h.alive_iff
  rateLaser := by rw [(Update_toShip p k dt).2.2.1]; exact h.rateLaser
  rateBullet := by rw [(Update_toShip p k dt).2.2.2]; exact h.rateBullet
  below := by
    intro hf
    by_contra hge
    obtain ⟨q, hq, -, -, -⟩ := Update_heat_eq_cool p k dt
    rw [hq] at hf hge
    have := cool_hot_overheated q dt (not_lt.mp hge)
    rw [hf] at this
    exact Bool.false_ne_true this

theorem heatShot_inv (p : PlayerShip) (h : PlayerInv p) : PlayerInv p.heatShot where
  heat := heatShot_heatInRange p h.heat
  alive_iff := by rw [(heatShot_toShip p).1]; exact h.alive_iff
  rateLaser := by rw [(heatShot_toShip p).1]; exact h.rateLaser
  rateBullet := by rw [(heatShot_toShip p).1]; exact h.rateBullet
  below := by
    simp only [PlayerShip.heatShot, OVERHEAT_MAX, OVERHEAT_PER_SHOT]
    split_ifs with hge
    · simp
    · intro _
      exact not_le.mp hge

theorem PlayerTakeDamage_inv (p : PlayerShip) (d : ℤ) (h : PlayerInv p) :
    PlayerInv (p.TakeDamage d) where
  heat := h.heat
  alive_iff := TakeDamage_alive_iff p.toShip d h.alive_iff
  rateLaser := by
    show (p.toShip.TakeDamage d).fireRateLaser = 18
    rw [(TakeDamage_fields p.toShip d).2.2.1]; exact h.rateLaser
  rateBullet := by
    show (p.toShip.TakeDamage d).fireRateBullet = 22
    rw [(TakeDamage_fields p.toShip d).2.2.2.1]; exact h.rateBullet
  below := h.below

theorem interval_pos (p : PlayerShip) (h : PlayerInv p) (w : WeaponType) :
    0 < 1 / p.GetFireRate w := by
  simp only [Ship.GetFireRate]
  split_ifs
  · rw [h.rateLaser]; norm_num
  · rw [h.rateBullet]; norm_num

theorem playerInv_closed : PlayerClosed PlayerInv where
  fresh := freshPlayer_inv
  update := fun p k dt hdt h => Update_inv p k dt hdt h
  shot := heatShot_inv
  damage := PlayerTakeDamage_inv
  skill := fun _ h => ⟨h.heat, h.alive_iff, h.rateLaser, h.rateBullet, h.below⟩

theorem heatShot_iterate_closed {P : PlayerShip → Prop} (hP : PlayerClosed P) (n : ℕ)
    (p : PlayerShip) (h : P p) : P (PlayerShip.heatShot^[n] p) := by
  induction n generalizing p with
  | zero => simpa using h
  | succ n ih =>
    rw [Function.iterate_succ_apply]
    exact ih _ (hP.shot p h)

theorem shotLoop_nonpos (interval projSpeed : ℚ) (hI : ¬ 0 < interval) (g : Game) :
    shotLoop interval projSpeed g = g := by
  rw [shotLoop]
  simp [hI]

theorem restartStep_closed {P : PlayerShip → Prop} (hP : PlayerClosed P) (k : FrameInput)
    (g : Game) (h : P g.player) : P (restartStep k g).player := by
  simp only [restartStep]
  split_ifs
  · exact hP.fresh k.texW
  · exact h

theorem shapeStep_player (k : FrameInput) (g : Game) : (shapeStep k g).player = g.player := by
  simp only [shapeStep]
  split_ifs <;> rfl

theorem weaponStep_player (k : FrameInput) (g : Game) : (weaponStep k g).player = g.player := by
  simp only [weaponStep]
  split_ifs <;> rfl

theorem shootingStep_closed {P : PlayerShip → Prop} (hP : PlayerClosed P) (k : FrameInput)
    (g : Game) (h : P g.player) : P (shootingStep k g).player := by
  simp only [shootingStep]
  split_ifs
  · by_cases hI : 0 < 1 / g.player.GetFireRate g.currentWeapon
    · rw [shotLoop_closed _ _ hI]
      exact heatShot_iterate_closed hP _ _ h
    · rw [shotLoop_nonpos _ _ hI]
      exact h
  · exact h
  · exact h

theorem panicStep_closed {P : PlayerShip → Prop} (hP : PlayerClosed P) (m : MathFns)
    (k : FrameInput) (g : Game) (h : P g.player) : P (panicStep m k g).player := by
  simp only [panicStep]
  split_ifs
  · exact hP.skill _ h
  · exact h

theorem spawnStep_player (m : MathFns) (k : FrameInput) (g : Game) :
    (spawnStep m k g).player = g.player := by
  simp only [spawnStep]
  split_ifs <;> rfl

theorem resolveStep_closed {P : PlayerShip → Prop} (hP : PlayerClosed P) (m : MathFns)
    (k : FrameInput) (g : Game) (h : P g.player) : P (resolveStep m k g).player := by
  simp only [resolveStep]
  exact asteroidShipPass_player m k.dt P hP.damage _ _ h

theorem frame_closed {P : PlayerShip → Prop} (hP : PlayerClosed P) (m : MathFns)
    (k : FrameInput) (g : Game) (hdt : 0 ≤ k.dt) (h : P g.player) :
    P (frame m k g).player := by
  unfold frame
  apply resolveStep_closed hP
  rw [spawnStep_player]
  apply panicStep_closed hP
  apply shootingStep_closed hP
  rw [weaponStep_player, shapeStep_player]
  apply restartStep_closed hP
  exact hP.update _ _ _ hdt h

theorem reachable_closed {P : PlayerShip → Prop} (hP : PlayerClosed P) (m : MathFns)
    (g : Game) (h : Reachable m g) : P g.player := by
  induction h with
  | start texW u => exact hP.fresh texW
  | step k g _ hdt ih => exact frame_closed hP m k g hdt ih

theorem reachable_inv (m : MathFns) (g : Game) (h : Reachable m g) : PlayerInv g.player :=
  reachable_closed playerInv_closed m g h

theorem playerReachable_closed : PlayerClosed PlayerReachable where
  fresh := PlayerReachable.fresh
  update := PlayerReachable.update
  shot := PlayerReachable.shot
  damage := PlayerReachable.damage
  skill := PlayerReachable.skill

theorem playerReachable_inv (p : PlayerShip) (h : PlayerReachable p) : PlayerInv p := by
  induction h with
  | fresh texW => exact freshPlayer_inv texW
  | update p k dt hdt _ ih => exact Update_inv p k dt hdt ih
  | shot p _ ih => exact heatShot_inv p ih
  | damage p d _ ih => exact PlayerTakeDamage_inv p d ih
  | skill p _ ih => exact playerInv_closed.skill p ih

/-! ## The overheated flag -/

theorem cool_cleared (p : PlayerShip) (dt : ℚ) (h0 : 0 ≤ p.overheat)
    (hov : p.overheated = true) (hcl : (p.cool dt).overheated = false) :
    (p.cool dt).overheat = 0 ∧ (p.cool dt).overheatSkillUsed = false := by
  have hm : (0 : ℚ) ≤ max 0 (p.overheat - 30 * dt) := le_max_left _ _
  revert hcl
  simp only [PlayerShip.cool, OVERHEAT_MAX, OVERHEAT_COOLDOWN_RATE]
  split_ifs <;> simp_all <;> linarith

theorem cool_zero_clears (p : PlayerShip) (dt : ℚ) (hov : p.overheated = true)
    (hz : (p.cool dt).overheat = 0) :
    (p.cool dt).overheated = false ∧ (p.cool dt).overheatSkillUsed = false := by
  revert hz
  simp only [PlayerShip.cool, OVERHEAT_MAX, OVERHEAT_COOLDOWN_RATE]
  split_ifs <;> simp_all
  linarith

theorem cool_positive_keeps (p : PlayerShip) (dt : ℚ) (hov : p.overheated = true)
    (hpos : 0 < (p.cool dt).overheat) :
    (p.cool dt).overheated = true ∧ (p.cool dt).overheatSkillUsed = p.overheatSkillUsed := by
  revert hpos
  simp only [PlayerShip.cool, OVERHEAT_MAX, OVERHEAT_COOLDOWN_RATE]
  split_ifs <;> simp_all <;> linarith

theorem heatShot_sets (p : PlayerShip) (h : 100 ≤ p.overheat + 3) :
    p.heatShot.overheated = true ∧ p.heatShot.overheat = 100 := by
  simp only [PlayerShip.heatShot, OVERHEAT_MAX, OVERHEAT_PER_SHOT]
  split_ifs with h1
  · simp
  · exact absurd h h1

theorem heatShot_keeps_flag (p : PlayerShip) (h : p.overheated = true) :
    p.heatShot.overheated = true := by
  simp only [PlayerShip.heatShot]
  split_ifs
  · rfl
  · exact h

theorem shootingStep_blocked (k : FrameInput) (g : Game) (h : g.player.overheated = true) :
    (shootingStep k g).player = g.player ∧ (shootingStep k g).projectiles = g.projectiles := by
  simp only [shootingStep, PlayerShip.CanShoot, h]
  split_ifs <;> simp_all

theorem frame_keeps_flag (m : MathFns) (k : FrameInput) (g : Game)
    (hu : (g.player.Update k k.dt).overheated = true)
    (hr : ¬ (g.player.alive = false ∧ k.keyR = true)) :
    (frame m k g).player.overheated = true := by
  have halive : (g.player.Update k k.dt).alive = g.player.alive := (Update_toShip _ _ _).2.1
  have h1 : (restartStep k (updateStep k g)).player = g.player.Update k k.dt := by
    simp only [restartStep, updateStep, Ship.IsAlive, halive]
    split_ifs with hc
    · exfalso
      apply hr
      simpa using hc
    · rfl
  have h2 : (weaponStep k (shapeStep k (restartStep k (updateStep k g)))).player.overheated
      = true := by
    rw [weaponStep_player, shapeStep_player, h1]
    exact hu
  have h3 := (shootingStep_blocked k _ h2).1
  unfold frame
  simp only [resolveStep]
  apply asteroidShipPass_player m k.dt (fun q => q.overheated = true) (fun q d hq => hq)
  rw [spawnStep_player]
  simp only [panicStep]
  split_ifs
  · show (shootingStep k _).player.overheated = true
    rw [h3]; exact h2
  · rw [h3]; exact h2

/-! ## The projectile-asteroid pass -/

theorem findHit_none (p : Projectile) (asts : List Asteroid) :
    findHit p asts = none ↔ ∀ a ∈ asts, hits p a = false := by
  induction asts with
  | nil => simp [findHit]
  | cons a rest ih =>
    simp only [findHit]
    by_cases h : hits p a = true
    · simp [h]
    · have hf : hits p a = false := by simpa using h
      simp only [hf, Bool.false_eq_true, if_false, List.mem_cons, forall_eq_or_imp, true_and]
      rw [← ih]
      cases findHit p rest with
      | none => simp
      | some x => simp

theorem findHit_first (p : Projectile) (pre : List Asteroid) (a : Asteroid)
    (post : List Asteroid) (hpre : ∀ b ∈ pre, hits p b = false) (ha : hits p a = true) :
    findHit p (pre ++ a :: post) = some (a, pre ++ post) := by
  induction pre with
  | nil => simp [findHit, ha]
  | cons b pre ih =>
    have hb : hits p b = false := hpre b (List.mem_cons_self _ _)
    have := ih (fun c hc => hpre c (List.mem_cons_of_mem _ hc))
    simp [findHit, hb, this]

theorem findHit_some (p : Projectile) (asts : List Asteroid) (a : Asteroid)
    (rest : List Asteroid) (h : findHit p asts = some (a, rest)) :
    ∃ pre post, asts = pre ++ a :: post ∧ rest = pre ++ post ∧
      (∀ b ∈ pre, hits p b = false) ∧ hits p a = true := by
  induction asts generalizing rest with
  | nil => simp [findHit] at h
  | cons b tl ih =>
    simp only [findHit] at h
    by_cases hb : hits p b = true
    · simp only [hb, if_true, Option.some.injEq, Prod.mk.injEq] at h
      obtain ⟨rfl, rfl⟩ := h
      exact ⟨[], tl, rfl, rfl, by simp, hb⟩
    · have hf : hits p b = false := by simpa using hb
      simp only [hf, Bool.false_eq_true, if_false] at h
      cases hfh : findHit p tl with
      | none => simp [hfh] at h
      | some x =>
        obtain ⟨c, tl1⟩ := x
        simp only [hfh, Option.some.injEq, Prod.mk.injEq] at h
        obtain ⟨rfl, rfl⟩ := h
        obtain ⟨pre, post, e1, e2, e3, e4⟩ := ih tl1 hfh
        refine ⟨b :: pre, post, by simp [e1], by simp [e2], ?_, e4⟩
        intro d hd
        rcases List.mem_cons.mp hd with rfl | hd
        · exact hf
        · exact e3 d hd

/-- The sum of the size multipliers of a list of asteroids. -/
theorem sizeSum_split (pre : List Asteroid) (a : Asteroid) (post : List Asteroid) :
    ((pre ++ a :: post).map Asteroid.GetSize).sum =
      a.GetSize + ((pre ++ post).map Asteroid.GetSize).sum := by
  simp only [List.map_append, List.map_cons, List.sum_append, List.sum_cons]
  ring

theorem pass_asteroids_sublist (ps : List Projectile) :
    ∀ (asts : List Asteroid) (score : ℤ),
      (projectileAsteroidPass ps asts score).2.1.Sublist asts := by
  induction ps with
  | nil => intro asts score; simp [projectileAsteroidPass]
  | cons p ps ih =>
    intro asts score
    simp only [projectileAsteroidPass]
    cases hfh : findHit p asts with
    | none => exact ih asts score
    | some x =>
      obtain ⟨a, rest⟩ := x
      obtain ⟨pre, post, e1, e2, -, -⟩ := findHit_some p asts a rest hfh
      refine (ih rest _).trans ?_
      rw [e1, e2]
      exact List.Sublist.append_left (List.sublist_cons_self a post) pre

theorem pass_no_collision_left (ps : List Projectile) :
    ∀ (asts : List Asteroid) (score : ℤ),
      ∀ p ∈ (projectileAsteroidPass ps asts score).1,
        ∀ a ∈ (projectileAsteroidPass ps asts score).2.1, hits p a = false := by
  induction ps with
  | nil => intro asts score p hp; simp [projectileAsteroidPass] at hp
  | cons q ps ih =>
    intro asts score p hp a ha
    simp only [projectileAsteroidPass] at hp ha
    cases hfh : findHit q asts with
    | none =>
      simp only [hfh] at hp ha
      rcases List.mem_cons.mp hp with rfl | hp
      · exact (findHit_none p asts).mp hfh a ((pass_asteroids_sublist ps asts score).subset ha)
      · exact ih asts score p hp a ha
    | some x =>
      obtain ⟨b, rest⟩ := x
      simp only [hfh] at hp ha
      exact ih rest _ p hp a ha

theorem pass_score (ps : List Projectile) :
    ∀ (asts : List Asteroid) (score : ℤ),
      (projectileAsteroidPass ps asts score).2.2 =
        score + 10 * ((asts.map Asteroid.GetSize).sum -
          ((projectileAsteroidPass ps asts score).2.1.map Asteroid.GetSize).sum) := by
  induction ps with
  | nil => intro asts score; simp [projectileAsteroidPass]
  | cons p ps ih =>
    intro asts score
    simp only [projectileAsteroidPass]
    cases hfh : findHit p asts with
    | none => exact ih asts score
    | some x =>
      obtain ⟨a, rest⟩ := x
      obtain ⟨pre, post, e1, e2, -, -⟩ := findHit_some p asts a rest hfh
      simp only
      rw [ih rest _, e1, sizeSum_split, ← e2]
      ring

/-! ## The asteroid-ship pass -/

theorem asteroidShipPass_append (m : MathFns) (dt : ℚ) (xs ys : List Asteroid) :
    ∀ player : PlayerShip,
      asteroidShipPass m dt player (xs ++ ys) =
        ((asteroidShipPass m dt (asteroidShipPass m dt player xs).1 ys).1,
          (asteroidShipPass m dt player xs).2 ++
            (asteroidShipPass m dt (asteroidShipPass m dt player xs).1 ys).2) := by
  induction xs with
  | nil => intro player; simp [asteroidShipPass]
  | cons a rest ih =>
    intro player
    rw [List.cons_append]
    simp only [asteroidShipPass]
    rw [ih]
    split_ifs <;> rfl

theorem remove_collision_hit (m : MathFns) (dt : ℚ) (player : PlayerShip) (a : Asteroid)
    (halive : player.alive = true)
    (hin : distanceLess player.GetPosition a.GetPosition (player.GetRadius + a.GetRadius)
      = true) :
    remove_collision m dt player a = (player.TakeDamage a.GetDamage, a, true) := by
  simp [remove_collision, Ship.IsAlive, halive, hin]

theorem remove_collision_dead (m : MathFns) (dt : ℚ) (player : PlayerShip) (a : Asteroid)
    (hdead : player.alive = false) :
    remove_collision m dt player a =
      (player, (a.Update m player.GetPosition dt).1, !(a.Update m player.GetPosition dt).2) := by
  simp only [remove_collision, Ship.IsAlive, hdead]
  cases (a.Update m player.GetPosition dt).2 <;> simp

theorem TakeDamage_alive_hp (s : Ship) (dmg : ℤ) (h : s.alive = true) :
    (s.TakeDamage dmg).hp = s.hp - dmg ∧
      ((s.TakeDamage dmg).alive = true ↔ 0 < s.hp - dmg) := by
  simp only [Ship.TakeDamage, h]
  by_cases h2 : s.hp - dmg ≤ 0
  · simp only [Bool.not_true, Bool.false_eq_true, if_false, h2, if_true, true_and, false_iff,
      not_lt]
  · simp only [Bool.not_true, Bool.false_eq_true, if_false, h2, true_and, h, true_iff]
    omega

theorem TakeDamage_dead (s : Ship) (dmg : ℤ) (h : s.alive = false) : s.TakeDamage dmg = s := by
  simp [Ship.TakeDamage, h]

theorem asteroidShipPass_dead (m : MathFns) (dt : ℚ) (player : PlayerShip)
    (hdead : player.alive = false) (asts : List Asteroid) :
    asteroidShipPass m dt player asts =
      (player, asts.filterMap fun a =>
        if (a.Update m player.GetPosition dt).2 then some (a.Update m player.GetPosition dt).1
        else none) := by
  induction asts with
  | nil => simp [asteroidShipPass]
  | cons a rest ih =>
    simp only [asteroidShipPass, remove_collision_dead m dt player a hdead, ih]
    cases hu : (a.Update m player.GetPosition dt).2 <;> simp [List.filterMap_cons, hu]

/-! ## The fire control -/

theorem frame_eq (m : MathFns) (k : FrameInput) (g : Game) :
    frame m k g =
      resolveStep m k (spawnStep m k (panicStep m k (shootingStep k (beforeShooting k g)))) :=
  rfl

theorem shapeStep_eq (k : FrameInput) (g : Game) :
    ∃ c : ℤ, shapeStep k g = { g with currentShape := c } := by
  simp only [shapeStep]
  split_ifs <;> exact ⟨_, rfl⟩

theorem weaponStep_eq (k : FrameInput) (g : Game) :
    ∃ w : WeaponType, weaponStep k g = { g with currentWeapon := w } := by
  simp only [weaponStep]
  split_ifs <;> exact ⟨_, rfl⟩

theorem restartStep_shotTimer (k : FrameInput) (g : Game) :
    (restartStep k g).shotTimer = g.shotTimer := by
  simp only [restartStep]
  split_ifs <;> rfl

theorem beforeShooting_shotTimer (k : FrameInput) (g : Game) :
    (beforeShooting k g).shotTimer = g.shotTimer := by
  unfold beforeShooting
  obtain ⟨w, hw⟩ := weaponStep_eq k (shapeStep k (restartStep k (updateStep k g)))
  obtain ⟨c, hc⟩ := shapeStep_eq k (restartStep k (updateStep k g))
  rw [hw, hc]
  exact restartStep_shotTimer k (updateStep k g)

theorem afterShooting_shotTimer (m : MathFns) (k : FrameInput) (s : Game) :
    (resolveStep m k (spawnStep m k (panicStep m k s))).shotTimer = s.shotTimer := by
  simp only [resolveStep, spawnStep, panicStep]
  split_ifs <;> rfl

theorem shootingStep_firing (k : FrameInput) (s : Game) (interval : ℚ)
    (hal : s.player.IsAlive = true) (hsp : k.keySpace = true)
    (hcs : s.player.CanShoot = true)
    (hI : 1 / s.player.GetFireRate s.currentWeapon = interval) (hpos : 0 < interval) :
    shootingStep k s =
      { s with
        projectiles := s.projectiles ++
          List.replicate (shotCount interval (s.shotTimer + k.dt))
            (nextShot (s.player.GetSpacing s.currentWeapon * s.player.GetFireRate s.currentWeapon)
              s)
        shotTimer := s.shotTimer + k.dt - (shotCount interval (s.shotTimer + k.dt) : ℕ) * interval
        player := PlayerShip.heatShot^[shotCount interval (s.shotTimer + k.dt)] s.player } := by
  simp only [shootingStep, hal, hsp, hcs, and_self, if_true, hI]
  rw [shotLoop_closed _ _ hpos]
  rfl

theorem shotCount_cast (interval t : ℚ) (hI : 0 < interval) (ht : 0 ≤ t) :
    ((shotCount interval t : ℕ) : ℤ) = ⌊t / interval⌋ := by
  unfold shotCount
  exact Int.toNat_of_nonneg (Int.floor_nonneg.mpr (div_nonneg ht hI.le))

theorem floor_carry (interval t T : ℚ) (hI : 0 < interval) (n : ℤ) :
    ⌊(t - n * interval + T) / interval⌋ = ⌊(t + T) / interval⌋ - n := by
  have h : (t - n * interval + T) / interval = (t + T) / interval - n := by
    field_simp
    ring
  rw [h, Int.floor_sub_int]

theorem shot_remainder_nonneg (interval t : ℚ) (hI : 0 < interval) (ht : 0 ≤ t) :
    0 ≤ t - (shotCount interval t : ℕ) * interval := by
  have hc : ((shotCount interval t : ℕ) : ℚ) = ((⌊t / interval⌋ : ℤ) : ℚ) := by
    rw [← shotCount_cast interval t hI ht]
    simp
  rw [hc]
  have := Int.floor_le (t / interval)
  have h2 : (⌊t / interval⌋ : ℚ) * interval ≤ t := by
    rwa [le_div_iff₀ hI] at this
  linarith

theorem shot_remainder_lt (interval t : ℚ) (hI : 0 < interval) (ht : 0 ≤ t) :
    t - (shotCount interval t : ℕ) * interval < interval := by
  have hc : ((shotCount interval t : ℕ) : ℚ) = ((⌊t / interval⌋ : ℤ) : ℚ) := by
    rw [← shotCount_cast interval t hI ht]
    simp
  rw [hc]
  have := Int.lt_floor_add_one (t / interval)
  have h2 : t < ((⌊t / interval⌋ : ℚ) + 1) * interval := by
    rwa [div_lt_iff₀ hI] at this
  linarith

theorem shotsEmitted_firing (k : FrameInput) (g : Game) (interval : ℚ)
    (hal : (beforeShooting k g).player.IsAlive = true) (hsp : k.keySpace = true)
    (hcs : (beforeShooting k g).player.CanShoot = true)
    (hI : 1 / (beforeShooting k g).player.GetFireRate (beforeShooting k g).currentWeapon
      = interval) (hpos : 0 < interval) (m : MathFns) :
    shotsEmitted k g = shotCount interval (g.shotTimer + k.dt) ∧
    (frame m k g).shotTimer =
      g.shotTimer + k.dt - (shotCount interval (g.shotTimer + k.dt) : ℕ) * interval := by
  have hs := shootingStep_firing k (beforeShooting k g) interval hal hsp hcs hI hpos
  have ht := beforeShooting_shotTimer k g
  constructor
  · unfold shotsEmitted
    rw [hs, ht]
    simp
  · rw [frame_eq, afterShooting_shotTimer, hs, ht]

theorem fire_accumulation (m : MathFns) (interval : ℚ) (hI : 0 < interval) :
    ∀ (ks : List FrameInput) (g : Game), 0 ≤ g.shotTimer → fireHeld m interval ks g = true →
      (ks ≠ [] ∨ g.shotTimer < interval) →
      (totalShots m ks g : ℤ) = ⌊(g.shotTimer + (ks.map FrameInput.dt).sum) / interval⌋ ∧
      (run m ks g).shotTimer =
        (g.shotTimer + (ks.map FrameInput.dt).sum) -
          interval * ⌊(g.shotTimer + (ks.map FrameInput.dt).sum) / interval⌋ := by
  intro ks
  induction ks with
  | nil =>
    intro g h0 _ hne
    have hlt : g.shotTimer < interval := by
      rcases hne with h | h
      · exact absurd rfl h
      · exact h
    have hfl : ⌊g.shotTimer / interval⌋ = 0 := by
      rw [Int.floor_eq_zero_iff]
      exact ⟨div_nonneg h0 hI.le, (div_lt_one hI).mpr hlt⟩
    simp [totalShots, run, hfl]
  | cons k ks ih =>
    intro g h0 hheld _
    simp only [fireHeld, Bool.and_eq_true, decide_eq_true_eq] at hheld
    obtain ⟨⟨⟨⟨⟨hdt, hal⟩, hsp⟩, hcs⟩, hrate⟩, hrest⟩ := hheld
    obtain ⟨e1, e2⟩ := shotsEmitted_firing k g interval hal hsp hcs hrate hI m
    have ht : 0 ≤ g.shotTimer + k.dt := add_nonneg h0 hdt
    have h1 : 0 ≤ (frame m k g).shotTimer := by
      rw [e2]; exact shot_remainder_nonneg interval _ hI ht
    have h2 : (frame m k g).shotTimer < interval := by
      rw [e2]; exact shot_remainder_lt interval _ hI ht
    obtain ⟨i1, i2⟩ := ih (frame m k g) h1 hrest (Or.inr h2)
    have hcast := shotCount_cast interval (g.shotTimer + k.dt) hI ht
    have hcarry := floor_carry interval (g.shotTimer + k.dt) (ks.map FrameInput.dt).sum hI
      (shotCount interval (g.shotTimer + k.dt) : ℕ)
    have hsum : g.shotTimer + ((k :: ks).map FrameInput.dt).sum =
        g.shotTimer + k.dt + (ks.map FrameInput.dt).sum := by
      simp only [List.map_cons, List.sum_cons]
      ring
    have e3 : (frame m k g).shotTimer + (ks.map FrameInput.dt).sum =
        g.shotTimer + k.dt - ((shotCount interval (g.shotTimer + k.dt) : ℕ) : ℤ) * interval +
          (ks.map FrameInput.dt).sum := by
      rw [e2]
      simp
    rw [e3, hcarry] at i1 i2
    rw [hsum]
    constructor
    · simp only [totalShots, Nat.cast_add, i1, e1]
      ring
    · show (run m ks (frame m k g)).shotTimer = _
      rw [i2]
      push_cast
      ring

theorem cool_stays_cool (p : PlayerShip) (dt : ℚ) (hdt : 0 ≤ dt)
    (hov : p.overheated = false) (hlt : p.overheat < 100) :
    (p.cool dt).overheated = false := by
  have hm : max 0 (p.overheat - 30 * dt) < 100 := max_lt (by norm_num) (by nlinarith)
  simp only [PlayerShip.cool, OVERHEAT_MAX, OVERHEAT_COOLDOWN_RATE]
  split_ifs <;> simp_all <;>
    first
    | linarith
    | (rename_i hor; rcases hor with hor | hor <;> linarith)

theorem beforeShooting_player (k : FrameInput) (g : Game) :
    (beforeShooting k g).player = (restartStep k (updateStep k g)).player := by
  unfold beforeShooting
  rw [weaponStep_player, shapeStep_player]

theorem beforeShooting_alive (k : FrameInput) (g : Game) (hal : g.player.alive = true) :
    (beforeShooting k g).player = g.player.Update k k.dt := by
  rw [beforeShooting_player]
  have halive : (g.player.Update k k.dt).alive = true := by
    rw [(Update_toShip _ _ _).2.1]; exact hal
  simp only [restartStep, updateStep, Ship.IsAlive, halive]
  simp

/-! ## The accumulator under rounding -/

theorem roundHalfEven_near (x : ℚ) : |x - (roundHalfEven x : ℚ)| ≤ 1 / 2 := by
  have h0 : (0 : ℚ) ≤ x - ⌊x⌋ := sub_nonneg.mpr (Int.floor_le x)
  have h1 : x - ⌊x⌋ < 1 := by
    have := Int.lt_floor_add_one x
    linarith
  unfold roundHalfEven
  split_ifs with ha hb hc
  · rw [abs_le]
    constructor <;> linarith
  · push_cast
    rw [abs_le]
    constructor <;> linarith
  · have he : x - ⌊x⌋ = 1 / 2 := le_antisymm (not_lt.mp hb) (not_lt.mp ha)
    rw [he, abs_le]
    constructor <;> norm_num
  · have he : x - ⌊x⌋ = 1 / 2 := le_antisymm (not_lt.mp hb) (not_lt.mp ha)
    push_cast
    rw [abs_le]
    constructor <;> linarith

theorem floatQuantum_spec (x : ℚ) (n : ℕ) :
    ∀ q : ℚ, 0 < q → x < q * 2 ^ 24 →
      (∃ j : ℕ, j ≤ n ∧ floatQuantum x n q = q / 2 ^ j) ∧
      x < floatQuantum x n q * 2 ^ 24 ∧
      (floatQuantum x n q ≠ q / 2 ^ n → floatQuantum x n q * 2 ^ 23 ≤ x) := by
  induction n with
  | zero =>
    intro q _ hx
    simp only [floatQuantum]
    exact ⟨⟨0, le_refl 0, by simp⟩, hx, fun h => absurd (by simp) h⟩
  | succ n ih =>
    intro q hq hx
    simp only [floatQuantum]
    split_ifs with hle
    · exact ⟨⟨0, Nat.zero_le _, by simp⟩, hx, fun _ => hle⟩
    · have hx2 : x < q / 2 * 2 ^ 24 := by
        have := not_le.mp hle
        linarith
      obtain ⟨⟨j, hj, ej⟩, h2, h3⟩ := ih (q / 2) (by positivity) hx2
      refine ⟨⟨j + 1, Nat.succ_le_succ hj, ?_⟩, h2, ?_⟩
      · rw [ej, pow_succ]
        field_simp
        left
        ring
      · intro hne
        apply h3
        intro heq
        apply hne
        rw [heq, pow_succ]
        field_simp
        left
        ring

/-- The value `roundF32 x` is an integer multiple of the spacing `q` of the floats around
`x`, at distance at most `q / 2` from `x`; `q` is `2^104` halved at most 253 times, with
`|x| < q * 2^24`, and `q * 2^23 ≤ |x|` unless `q` is the subnormal spacing `2^104 / 2^253`.
This holds of every `x` of magnitude below `2^128`. -/
theorem roundF32_nearest (x : ℚ) (hx : |x| < 2 ^ 128) :
    (∃ k : ℤ, roundF32 x = (k : ℚ) * floatQuantum |x| 253 (2 ^ 104)) ∧
    |x - roundF32 x| ≤ floatQuantum |x| 253 (2 ^ 104) / 2 ∧
    (∃ j : ℕ, j ≤ 253 ∧ floatQuantum |x| 253 (2 ^ 104) = 2 ^ 104 / 2 ^ j) ∧
    |x| < floatQuantum |x| 253 (2 ^ 104) * 2 ^ 24 ∧
    (floatQuantum |x| 253 (2 ^ 104) ≠ 2 ^ 104 / 2 ^ 253 →
      floatQuantum |x| 253 (2 ^ 104) * 2 ^ 23 ≤ |x|) := by
  have hx2 : |x| < (2 : ℚ) ^ 104 * 2 ^ 24 := by
    rw [← pow_add]
    exact hx
  obtain ⟨⟨j, hj, ej⟩, h2, h3⟩ := floatQuantum_spec |x| 253 (2 ^ 104) (by positivity) hx2
  have hq : 0 < floatQuantum |x| 253 (2 ^ 104) := by
    rw [ej]
    positivity
  refine ⟨⟨_, rfl⟩, ?_, ⟨j, hj, ej⟩, h2, h3⟩
  unfold roundF32
  generalize floatQuantum |x| 253 (2 ^ 104) = q at hq ⊢
  have hn := roundHalfEven_near (x / q)
  have he : x - (roundHalfEven (x / q) : ℚ) * q = (x / q - (roundHalfEven (x / q) : ℚ)) * q := by
    field_simp
    ring
  rw [he, abs_mul, abs_of_pos hq]
  have := mul_le_mul_of_nonneg_right hn hq.le
  linarith


theorem roundedShotLoop_exit (rnd : ℚ → ℚ) (interval : ℚ) (fuel : ℕ) :
    ∀ (t : ℚ) (n : ℕ) (t1 : ℚ),
      roundedShotLoop rnd interval fuel t = some (n, t1) → t1 < interval := by
  induction fuel with
  | zero =>
    intro t n t1 h
    simp only [roundedShotLoop] at h
    split_ifs at h with hge
    simp only [Option.some.injEq, Prod.mk.injEq] at h
    rw [← h.2]
    exact not_le.mp hge
  | succ fuel ih =>
    intro t n t1 h
    simp only [roundedShotLoop] at h
    split_ifs at h with hge
    · cases hr : roundedShotLoop rnd interval fuel (rnd (t - interval)) with
      | none => simp [hr] at h
      | some x =>
        obtain ⟨n2, t2⟩ := x
        simp only [hr, Option.some.injEq, Prod.mk.injEq] at h
        rw [← h.2]
        exact ih _ _ _ hr
    · simp only [Option.some.injEq, Prod.mk.injEq] at h
      rw [← h.2]
      exact not_le.mp hge

theorem shotCount_of_lt (interval t : ℚ) (hI : 0 < interval) (hlt : t < interval) :
    shotCount interval t = 0 := by
  unfold shotCount
  have h1 : t / interval < 1 := (div_lt_one hI).mpr hlt
  have h2 : ⌊t / interval⌋ < 1 := Int.floor_lt.mpr (by simpa using h1)
  omega

theorem shotCount_of_ge (interval t : ℚ) (hI : 0 < interval) (hge : interval ≤ t) :
    shotCount interval t = shotCount interval (t - interval) + 1 := by
  unfold shotCount
  have hsub : (t - interval) / interval = t / interval - 1 := by field_simp
  have hone : (1 : ℚ) ≤ t / interval := by
    rw [le_div_iff₀ hI]
    simpa using hge
  have hfl : (1 : ℤ) ≤ ⌊t / interval⌋ := Int.le_floor.mpr (by simpa using hone)
  rw [hsub, Int.floor_sub_one]
  omega

theorem roundedShotLoop_exact (interval : ℚ) (hI : 0 < interval) (fuel : ℕ) :
    ∀ t : ℚ, shotCount interval t ≤ fuel →
      roundedShotLoop id interval fuel t =
        some (shotCount interval t, t - (shotCount interval t : ℕ) * interval) := by
  induction fuel with
  | zero =>
    intro t hc
    have hz : shotCount interval t = 0 := Nat.le_zero.mp hc
    have hlt : t < interval := by
      by_contra hge
      have := shotCount_of_ge interval t hI (not_lt.mp hge)
      omega
    simp [roundedShotLoop, not_le.mpr hlt, hz]
  | succ fuel ih =>
    intro t hc
    by_cases hge : interval ≤ t
    · have hs := shotCount_of_ge interval t hI hge
      have hi := ih (t - interval) (by omega)
      simp only [roundedShotLoop, ge_iff_le, hge, if_true, id, hi, hs, Nat.cast_add,
        Nat.cast_one, Option.some.injEq, Prod.mk.injEq, true_and]
      ring
    · have hz := shotCount_of_lt interval t hI (not_le.mp hge)
      simp [roundedShotLoop, hge, hz]

theorem roundedFiring_exact (m : MathFns) (rate interval : ℚ) (hr : 1 / rate = interval)
    (hI : 0 < interval) :
    ∀ (ks : List FrameInput) (g : Game), fireHeld m interval ks g = true →
      ∃ fuel0 : ℕ, ∀ fuel : ℕ, fuel0 ≤ fuel →
        roundedFiring id rate fuel (ks.map FrameInput.dt) g.shotTimer =
          some (totalShots m ks g, (run m ks g).shotTimer) := by
  intro ks
  induction ks with
  | nil =>
    intro g _
    exact ⟨0, fun fuel _ => by simp [roundedFiring, totalShots, run]⟩
  | cons k ks ih =>
    intro g hheld
    simp only [fireHeld, Bool.and_eq_true, decide_eq_true_eq] at hheld
    obtain ⟨⟨⟨⟨⟨_, hal⟩, hsp⟩, hcs⟩, hrate⟩, hrest⟩ := hheld
    obtain ⟨e1, e2⟩ := shotsEmitted_firing k g interval hal hsp hcs hrate hI m
    obtain ⟨f0, hf0⟩ := ih (frame m k g) hrest
    refine ⟨max f0 (shotCount interval (g.shotTimer + k.dt)), ?_⟩
    intro fuel hfuel
    have h1 : f0 ≤ fuel := le_trans (le_max_left _ _) hfuel
    have h2 : shotCount interval (g.shotTimer + k.dt) ≤ fuel :=
      le_trans (le_max_right _ _) hfuel
    have hloop := roundedShotLoop_exact interval hI fuel (g.shotTimer + k.dt) h2
    have hrec := hf0 fuel h1
    rw [e2] at hrec
    simp only [List.map_cons, roundedFiring, id, hr, hloop, hrec, totalShots, e1]
    rfl

/-- With `float` rounding the number of shots depends on how one second of fire is split
into frames (laser, accumulator 0 at the start): one frame of 1 s gives 17 shots, four
frames of 1/4 s give 18.  Without rounding both give 18 and leave the accumulator at 0. -/
theorem float_split_dependence :
    roundedFiring roundF32 18 64 [1] 0 = some (17, 14913031 / 268435456) ∧
    roundedFiring roundF32 18 64 [1 / 4, 1 / 4, 1 / 4, 1 / 4] 0 = some (18, 7 / 134217728) ∧
    roundedFiring id 18 64 [1] 0 = some (18, 0) ∧
    roundedFiring id 18 64 [1 / 4, 1 / 4, 1 / 4, 1 / 4] 0 = some (18, 0) := by
  decide!

/-! ## Asteroid creation -/

theorem init_size (m : MathFns) (w h : ℤ) (d : AsteroidDraws) (c : AsteroidClass) :
    (Asteroid.init m w h d c).render.size = 2 ∨ (Asteroid.init m w h d c).render.size = 4 := by
  have e : (2 : ℤ) - 1 + 1 = 2 := by norm_num
  simp only [Asteroid.init, GetRandomValue, e]
  rcases Int.emod_two_eq (d.sizeRaw : ℤ) with h0 | h1
  · left
    rw [h0]
    rfl
  · right
    rw [h1]
    rfl

theorem init_cls (m : MathFns) (w h : ℤ) (d : AsteroidDraws) (c : AsteroidClass) :
    (Asteroid.init m w h d c).cls = c := rfl

theorem MakeAsteroid_cases (m : MathFns) (w h : ℤ) (shape : ℤ) (rRaw typeRaw : ℕ)
    (d : AsteroidDraws) :
    MakeAsteroid m w h shape rRaw typeRaw d = TriangleAsteroid.new m w h d ∨
    MakeAsteroid m w h shape rRaw typeRaw d = SquareAsteroid.new m w h d ∨
    MakeAsteroid m w h shape rRaw typeRaw d = PentagonAsteroid.new m w h d ∨
    MakeAsteroid m w h shape rRaw typeRaw d = ChasingAsteroid.new m w h d := by
  simp only [MakeAsteroid]
  split_ifs <;> simp

theorem Update_keeps (m : MathFns) (playerPos : Vector2) (a : Asteroid) (dt : ℚ) :
    (a.UpdateBase dt).1.render = a.render ∧ (a.UpdateBase dt).1.baseDamage = a.baseDamage ∧
    (a.UpdateBase dt).1.cls = a.cls ∧
    (ChasingAsteroid.Update m playerPos a dt).1.render = a.render ∧
    (ChasingAsteroid.Update m playerPos a dt).1.baseDamage = a.baseDamage ∧
    (ChasingAsteroid.Update m playerPos a dt).1.cls = a.cls ∧
    (a.Update m playerPos dt).1.render = a.render ∧
    (a.Update m playerPos dt).1.baseDamage = a.baseDamage ∧
    (a.Update m playerPos dt).1.cls = a.cls := by
  have h1 : (a.UpdateBase dt).1.render = a.render ∧
      (a.UpdateBase dt).1.baseDamage = a.baseDamage ∧ (a.UpdateBase dt).1.cls = a.cls := by
    simp only [Asteroid.UpdateBase]
    split_ifs <;> exact ⟨rfl, rfl, rfl⟩
  have h2 : (ChasingAsteroid.Update m playerPos a dt).1.render = a.render ∧
      (ChasingAsteroid.Update m playerPos a dt).1.baseDamage = a.baseDamage ∧
      (ChasingAsteroid.Update m playerPos a dt).1.cls = a.cls := by
    simp only [ChasingAsteroid.Update]
    split_ifs <;> exact ⟨rfl, rfl, rfl⟩
  refine ⟨h1.1, h1.2.1, h1.2.2, h2.1, h2.2.1, h2.2.2, ?_⟩
  unfold Asteroid.Update
  split <;> first | exact h2 | exact h1

/-! ## Heat during continuous fire -/

theorem heatShot_values (p : PlayerShip) :
    p.heatShot.overheat = min (p.overheat + 3) 100 ∧
    (p.heatShot.overheated = true ↔ p.overheated = true ∨ 100 ≤ p.overheat + 3) ∧
    p.heatShot.overheatCooldown = 1 := by
  simp only [PlayerShip.heatShot, OVERHEAT_MAX, OVERHEAT_PER_SHOT, OVERHEAT_COOLDOWN_DELAY]
  split_ifs with h
  · simp [h]
  · have hlt : p.overheat + 3 < 100 := not_le.mp h
    simp [h, le_of_lt hlt]

theorem heatShot_iterate_values (n : ℕ) (p : PlayerShip) :
    (PlayerShip.heatShot^[n] p).overheat = (if n = 0 then p.overheat
      else min (p.overheat + 3 * n) 100) ∧
    ((PlayerShip.heatShot^[n] p).overheated = true ↔
      p.overheated = true ∨ (0 < n ∧ 100 ≤ p.overheat + 3 * n)) ∧
    (PlayerShip.heatShot^[n] p).overheatCooldown = (if n = 0 then p.overheatCooldown else 1) := by
  induction n with
  | zero => simp
  | succ n ih =>
    rw [Function.iterate_succ_apply']
    obtain ⟨i1, i2, -⟩ := ih
    obtain ⟨v1, v2, v3⟩ := heatShot_values (PlayerShip.heatShot^[n] p)
    refine ⟨?_, ?_, ?_⟩
    · rw [v1, i1]
      simp only [Nat.succ_ne_zero, if_false]
      by_cases hn : n = 0
      · simp [hn]
      · simp only [hn, if_false]
        push_cast
        rcases le_total (p.overheat + 3 * (n : ℚ)) 100 with h | h
        · rw [min_eq_left h]
          congr 1
          ring
        · rw [min_eq_right h, min_eq_right (by norm_num), min_eq_right (by linarith)]
    · rw [v2, i2, i1]
      push_cast
      by_cases hn : n = 0
      · simp [hn]
      · have hpos : 0 < n := Nat.pos_of_ne_zero hn
        simp only [hn, if_false, hpos, true_and, Nat.succ_pos]
        have K : 100 ≤ min (p.overheat + 3 * (n : ℚ)) 100 + 3 ↔
            97 ≤ p.overheat + 3 * (n : ℚ) := by
          constructor
          · intro h
            have := min_le_left (p.overheat + 3 * (n : ℚ)) 100
            linarith
          · intro h
            have : 97 ≤ min (p.overheat + 3 * (n : ℚ)) 100 := le_min h (by norm_num)
            linarith
        rw [K]
        constructor
        · rintro ((h | h) | h)
          · exact Or.inl h
          · exact Or.inr (by linarith)
          · exact Or.inr (by linarith)
        · rintro (h | h)
          · exact Or.inl (Or.inl h)
          · exact Or.inr (by linarith)
    · rw [v3]
      simp

theorem cool_no_decay (p : PlayerShip) (dt : ℚ) (h1 : p.overheated = false)
    (h2 : p.overheat < 100) (h3 : 0 < p.overheat → 0 < p.overheatCooldown) :
    (p.cool dt).overheat = p.overheat ∧ (p.cool dt).overheated = false ∧
    (p.cool dt).overheatCooldown =
      (if 0 < p.overheat then p.overheatCooldown - dt else p.overheatCooldown) := by
  simp only [PlayerShip.cool, OVERHEAT_MAX, OVERHEAT_COOLDOWN_RATE]
  by_cases hpos : 0 < p.overheat
  · have hc := h3 hpos
    simp [hpos, hc, h1, not_le.mpr h2]
  · simp [hpos, h1, not_le.mpr h2]

theorem Update_no_decay (p : PlayerShip) (k : FrameInput) (dt : ℚ) (h1 : p.overheated = false)
    (h2 : p.overheat < 100) (h3 : 0 < p.overheat → 0 < p.overheatCooldown) :
    (p.Update k dt).overheat = p.overheat ∧ (p.Update k dt).overheated = false ∧
    (p.Update k dt).overheatCooldown =
      (if 0 < p.overheat then p.overheatCooldown - dt else p.overheatCooldown) := by
  obtain ⟨e1, e2, e3, -⟩ := move_overheat p k dt
  have := cool_no_decay (p.move k dt) dt (e3 ▸ h1) (e1 ▸ h2) (by rw [e1, e2]; exact h3)
  rw [e1, e2] at this
  exact this

theorem afterShooting_heat (m : MathFns) (k : FrameInput) (s : Game) :
    (resolveStep m k (spawnStep m k (panicStep m k s))).player.overheat = s.player.overheat ∧
    (resolveStep m k (spawnStep m k (panicStep m k s))).player.overheated
      = s.player.overheated ∧
    (resolveStep m k (spawnStep m k (panicStep m k s))).player.overheatCooldown
      = s.player.overheatCooldown := by
  simp only [resolveStep]
  apply asteroidShipPass_player m k.dt
    (fun q => q.overheat = s.player.overheat ∧ q.overheated = s.player.overheated ∧
      q.overheatCooldown = s.player.overheatCooldown) (fun q d hq => hq)
  rw [spawnStep_player]
  simp only [panicStep]
  split_ifs <;> exact ⟨rfl, rfl, rfl⟩

theorem fireRate_cases (p : PlayerShip) (h : PlayerInv p) (w : WeaponType) :
    1 / p.GetFireRate w = 1 / 18 ∨ 1 / p.GetFireRate w = 1 / 22 := by
  simp only [Ship.GetFireRate]
  split_ifs
  · left; rw [h.rateLaser]
  · right; rw [h.rateBullet]

theorem fire_step (m : MathFns) (k : FrameInput) (g : Game) (n : ℕ) (hinv : FireInv g n)
    (hn : n < 34) (hdt : 0 ≤ k.dt) (hal : g.player.alive = true) (hsp : k.keySpace = true) :
    (n + shotsEmitted k g < 34 → FireInv (frame m k g) (n + shotsEmitted k g)) ∧
    (34 ≤ n + shotsEmitted k g →
      (frame m k g).player.overheated = true ∧ (frame m k g).player.overheat = 100) := by
  have hnq : (n : ℚ) ≤ 33 := by exact_mod_cast Nat.le_of_lt_succ hn
  have hlt : g.player.overheat < 100 := by rw [hinv.heat]; linarith
  have hcd : 0 < g.player.overheat → 0 < g.player.overheatCooldown := by
    intro hp
    have h1 := hinv.delay hp
    have h2 := hinv.timer1
    linarith
  obtain ⟨u1, u2, u3⟩ := Update_no_decay g.player k k.dt hinv.cool hlt hcd
  have hbs : (beforeShooting k g).player = g.player.Update k k.dt :=
    beforeShooting_alive k g hal
  have hbt : (beforeShooting k g).shotTimer = g.shotTimer := beforeShooting_shotTimer k g
  have huinv : PlayerInv (g.player.Update k k.dt) := Update_inv _ _ _ hdt hinv.inv
  obtain ⟨I, hIdef⟩ : ∃ I, 1 / (beforeShooting k g).player.GetFireRate
      (beforeShooting k g).currentWeapon = I := ⟨_, rfl⟩
  have hIpos : 0 < I ∧ I ≤ 1 / 18 := by
    rw [← hIdef, hbs]
    rcases fireRate_cases _ huinv (beforeShooting k g).currentWeapon with h | h <;> rw [h] <;>
      norm_num
  have hsal : (beforeShooting k g).player.IsAlive = true := by
    rw [hbs]
    show (g.player.Update k k.dt).alive = true
    rw [(Update_toShip _ _ _).2.1]
    exact hal
  have hscs : (beforeShooting k g).player.CanShoot = true := by
    rw [hbs]
    simp [PlayerShip.CanShoot, u2]
  obtain ⟨e1, e2⟩ := shotsEmitted_firing k g I hsal hsp hscs hIdef hIpos.1 m
  have hshoot := shootingStep_firing k (beforeShooting k g) I hsal hsp hscs hIdef hIpos.1
  obtain ⟨a1, a2, a3⟩ := afterShooting_heat m k (shootingStep k (beforeShooting k g))
  rw [← frame_eq] at a1 a2 a3
  have hpl : (shootingStep k (beforeShooting k g)).player =
      PlayerShip.heatShot^[shotCount I (g.shotTimer + k.dt)] (g.player.Update k k.dt) := by
    rw [hshoot, hbt, hbs]
  rw [hpl] at a1 a2 a3
  obtain ⟨v1, v2, v3⟩ :=
    heatShot_iterate_values (shotCount I (g.shotTimer + k.dt)) (g.player.Update k k.dt)
  rw [u1, hinv.heat] at v1
  rw [u2, u1, hinv.heat] at v2
  rw [u3] at v3
  rw [e1]
  have ht : 0 ≤ g.shotTimer + k.dt := add_nonneg hinv.timer0 hdt
  have hr0 := shot_remainder_nonneg I _ hIpos.1 ht
  have hr1 := shot_remainder_lt I _ hIpos.1 ht
  generalize shotCount I (g.shotTimer + k.dt) = c at *
  constructor
  · intro hlt34
    have hcq : (n : ℚ) + (c : ℚ) ≤ 33 := by exact_mod_cast Nat.le_of_lt_succ hlt34
    have hheat : (frame m k g).player.overheat = 3 * ((n + c : ℕ) : ℚ) := by
      rw [a1, v1]
      push_cast
      by_cases hc : c = 0
      · simp [hc]
      · simp only [hc, if_false]
        rw [min_eq_left (by linarith)]
        ring
    refine ⟨frame_closed playerInv_closed m k g hdt hinv.inv, hheat, ?_, ?_, ?_, ?_⟩
    · rw [a2]
      by_contra hne
      have hov := v2.mp (by simpa using hne)
      rcases hov with h | ⟨_, h⟩
      · exact Bool.false_ne_true h
      · linarith
    · rw [e2]; exact hr0
    · rw [e2]; linarith [hIpos.2]
    · intro hpos
      rw [a3, v3, e2]
      by_cases hc : c = 0
      · subst hc
        have hp : 0 < g.player.overheat := by
          rw [hheat] at hpos
          rw [hinv.heat]
          simpa using hpos
        have := hinv.delay hp
        simp only [hp, if_true, if_true, Nat.cast_zero, zero_mul, sub_zero]
        linarith
      · simp only [hc, if_false]
        linarith
  · intro hge34
    have hcq : (34 : ℚ) ≤ (n : ℚ) + (c : ℚ) := by exact_mod_cast hge34
    have hc : c ≠ 0 := by omega
    have hcpos : 0 < c := Nat.pos_of_ne_zero hc
    refine ⟨?_, ?_⟩
    · rw [a2]
      exact v2.mpr (Or.inr ⟨hcpos, by linarith⟩)
    · rw [a1, v1]
      simp only [hc, if_false]
      exact min_eq_right (by linarith)

theorem run_append (m : MathFns) (ks ks2 : List FrameInput) (g : Game) :
    run m (ks ++ ks2) g = run m ks2 (run m ks g) := by
  simp [run, List.foldl_append]

theorem totalShots_append (m : MathFns) (ks2 : List FrameInput) :
    ∀ (ks : List FrameInput) (g : Game),
      totalShots m (ks ++ ks2) g = totalShots m ks g + totalShots m ks2 (run m ks g) := by
  intro ks
  induction ks with
  | nil => intro g; simp [totalShots, run]
  | cons k ks ih =>
    intro g
    have h := ih (frame m k g)
    show shotsEmitted k g + totalShots m (ks ++ ks2) (frame m k g) =
      shotsEmitted k g + totalShots m ks (frame m k g) +
        totalShots m ks2 (run m ks (frame m k g))
    rw [h, Nat.add_assoc]

theorem fireKeyHeld_append (m : MathFns) (ks2 : List FrameInput) :
    ∀ (ks : List FrameInput) (g : Game), fireKeyHeld m (ks ++ ks2) g = true →
      fireKeyHeld m ks g = true ∧ fireKeyHeld m ks2 (run m ks g) = true := by
  intro ks
  induction ks with
  | nil => intro g h; exact ⟨rfl, h⟩
  | cons k ks ih =>
    intro g h
    simp only [List.cons_append, fireKeyHeld, Bool.and_eq_true] at h ⊢
    obtain ⟨h1, h2⟩ := h
    obtain ⟨i1, i2⟩ := ih _ h2
    exact ⟨⟨h1, i1⟩, i2⟩

theorem start_fireInv (texW : ℤ) (u : ℚ) : FireInv (Game.start texW u) 0 where
  inv := freshPlayer_inv texW
  heat := by simp [Game.start, freshPlayer, PlayerShip.new]
  cool := rfl
  timer0 := by simp [Game.start]
  timer1 := by simp [Game.start]
  delay := by
    intro h
    simp [Game.start, freshPlayer, PlayerShip.new] at h

theorem fire_run (m : MathFns) :
    ∀ (ks : List FrameInput) (g : Game) (n : ℕ), FireInv g n → fireKeyHeld m ks g = true →
      n + totalShots m ks g < 34 → FireInv (run m ks g) (n + totalShots m ks g) := by
  intro ks
  induction ks with
  | nil => intro g n hinv _ _; simpa [totalShots, run] using hinv
  | cons k ks ih =>
    intro g n hinv hheld hlt
    simp only [fireKeyHeld, Bool.and_eq_true, decide_eq_true_eq] at hheld
    obtain ⟨⟨⟨hdt, hal⟩, hsp⟩, hrest⟩ := hheld
    simp only [totalShots] at hlt ⊢
    have hstep := (fire_step m k g n hinv (by omega) hdt hal hsp).1 (by omega)
    have := ih (frame m k g) (n + shotsEmitted k g) hstep hrest (by omega)
    rw [Nat.add_assoc] at this
    exact this

theorem shotsEmitted_blocked (k : FrameInput) (g : Game)
    (h : (beforeShooting k g).player.overheated = true) :
    shotsEmitted k g = 0 ∧
    (shootingStep k (beforeShooting k g)).projectiles = (beforeShooting k g).projectiles := by
  have hb := (shootingStep_blocked k (beforeShooting k g) h).2
  refine ⟨?_, hb⟩
  unfold shotsEmitted
  rw [hb]
  simp

theorem beforeShooting_no_restart (k : FrameInput) (g : Game)
    (hr : ¬ (g.player.alive = false ∧ k.keyR = true)) :
    (beforeShooting k g).player = g.player.Update k k.dt := by
  rw [beforeShooting_player]
  have halive : (g.player.Update k k.dt).alive = g.player.alive := (Update_toShip _ _ _).2.1
  simp only [restartStep, updateStep, Ship.IsAlive, halive]
  split_ifs with hc
  · exfalso
    apply hr
    simpa using hc
  · rfl

/-! ## The panic skill -/

theorem cool_keeps_used (p : PlayerShip) (dt : ℚ) (h0 : 0 ≤ p.overheat)
    (hu : p.overheatSkillUsed = true) :
    (p.cool dt).overheatSkillUsed = true ∨
      (p.overheated = true ∧ (p.cool dt).overheated = false ∧ (p.cool dt).overheat = 0) := by
  by_cases hov : p.overheated = true
  · by_cases hcl : (p.cool dt).overheated = false
    · exact Or.inr ⟨hov, hcl, (cool_cleared p dt h0 hov hcl).1⟩
    · left
      have hpos : 0 < (p.cool dt).overheat := by
        by_contra hnp
        have hm : (0 : ℚ) ≤ max 0 (p.overheat - 30 * dt) := le_max_left _ _
        revert hcl hnp
        simp only [PlayerShip.cool, OVERHEAT_MAX, OVERHEAT_COOLDOWN_RATE]
        split_ifs <;> simp_all
      rw [(cool_positive_keeps p dt hov hpos).2]
      exact hu
  · left
    have hf : p.overheated = false := by simpa using hov
    simp only [PlayerShip.cool, OVERHEAT_MAX, OVERHEAT_COOLDOWN_RATE]
    split_ifs <;> simp_all <;> linarith

theorem Update_keeps_used (k : FrameInput) (g : Game) (h0 : 0 ≤ g.player.overheat)
    (hu : g.player.overheatSkillUsed = true) (hc : updateClears k g = false) :
    (g.player.Update k k.dt).overheatSkillUsed = true := by
  obtain ⟨e1, _, e3, e4⟩ := move_overheat g.player k k.dt
  rcases cool_keeps_used (g.player.move k k.dt) k.dt (e1 ▸ h0) (e4 ▸ hu) with h | ⟨h1, h2, h3⟩
  · exact h
  · exfalso
    rw [e3] at h1
    have : updateClears k g = true := by
      simp only [updateClears, PlayerShip.Update, h1, h2, h3]
      simp
    rw [hc] at this
    exact Bool.false_ne_true this

theorem shootingStep_used (k : FrameInput) (s : Game) :
    (shootingStep k s).player.overheatSkillUsed = s.player.overheatSkillUsed := by
  simp only [shootingStep]
  split_ifs
  · by_cases hI : 0 < 1 / s.player.GetFireRate s.currentWeapon
    · rw [shotLoop_closed _ _ hI]
      exact (heatShot_iterate_toShip _ _).2.2.2
    · rw [shotLoop_nonpos _ _ hI]
  · rfl
  · rfl

theorem afterPanic_used (m : MathFns) (k : FrameInput) (s : Game) :
    (resolveStep m k (spawnStep m k s)).player.overheatSkillUsed
      = s.player.overheatSkillUsed := by
  simp only [resolveStep]
  apply asteroidShipPass_player m k.dt
    (fun q => q.overheatSkillUsed = s.player.overheatSkillUsed) (fun q d hq => hq)
  rw [spawnStep_player]

theorem restarts_false (k : FrameInput) (g : Game) (hr : restarts k g = false) :
    ¬ (g.player.alive = false ∧ k.keyR = true) := by
  rintro ⟨h1, h2⟩
  have halive : (g.player.Update k k.dt).alive = g.player.alive := (Update_toShip _ _ _).2.1
  have : restarts k g = true := by
    simp [restarts, updateStep, Ship.IsAlive, halive, h1, h2]
  rw [hr] at this
  exact Bool.false_ne_true this

theorem frame_keeps_used (m : MathFns) (k : FrameInput) (g : Game)
    (h0 : 0 ≤ g.player.overheat) (hu : g.player.overheatSkillUsed = true)
    (hc : updateClears k g = false) (hr : restarts k g = false) :
    panicFires k g = false ∧ (frame m k g).player.overheatSkillUsed = true := by
  have hb := beforeShooting_no_restart k g (restarts_false k g hr)
  have h1 : (beforePanic k g).player.overheatSkillUsed = true := by
    unfold beforePanic
    rw [shootingStep_used, hb]
    exact Update_keeps_used k g h0 hu hc
  have h2 : panicFires k g = false := by
    simp [panicFires, panicTriggered, h1]
  refine ⟨h2, ?_⟩
  rw [frame_eq, afterPanic_used]
  have h3 : panicTriggered k (shootingStep k (beforeShooting k g)) = false := h2
  simp only [panicStep, h3]
  exact h1

theorem frame_sets_used (m : MathFns) (k : FrameInput) (g : Game)
    (h : panicFires k g = true) : (frame m k g).player.overheatSkillUsed = true := by
  rw [frame_eq, afterPanic_used]
  have h3 : panicTriggered k (shootingStep k (beforeShooting k g)) = true := h
  simp only [panicStep, h3, if_true]

theorem panic_needs_clear (m : MathFns) (k2 : FrameInput) :
    ∀ (mid : List FrameInput) (g : Game), PlayerInv g.player →
      g.player.overheatSkillUsed = true → (∀ k ∈ mid ++ [k2], 0 ≤ k.dt) →
      panicFires k2 (run m mid g) = true →
        anyUpdateClears m (mid ++ [k2]) g = true ∨ anyRestart m (mid ++ [k2]) g = true := by
  intro mid
  induction mid with
  | nil =>
    intro g hinv hu _ hfire
    by_cases hc : updateClears k2 g = true
    · left; simp [anyUpdateClears, hc]
    · by_cases hr : restarts k2 g = true
      · right; simp [anyRestart, hr]
      · exfalso
        have := (frame_keeps_used m k2 g hinv.heat.1 hu (by simpa using hc)
          (by simpa using hr)).1
        have hf2 : panicFires k2 g = true := hfire
        rw [this] at hf2
        exact Bool.false_ne_true hf2
  | cons k mid ih =>
    intro g hinv hu hdt hfire
    by_cases hc : updateClears k g = true
    · left; simp [anyUpdateClears, hc]
    · by_cases hr : restarts k g = true
      · right; simp [anyRestart, hr]
      · have hk : 0 ≤ k.dt := hdt k (by simp)
        have hused := (frame_keeps_used m k g hinv.heat.1 hu (by simpa using hc)
          (by simpa using hr)).2
        have hinv2 := frame_closed playerInv_closed m k g hk hinv
        have hdt2 : ∀ x ∈ mid ++ [k2], 0 ≤ x.dt := fun x hx => hdt x (by
          simp only [List.cons_append, List.mem_cons]
          exact Or.inr hx)
        rcases ih (frame m k g) hinv2 hused hdt2 hfire with h | h
        · left
          show (updateClears k g || anyUpdateClears m (mid ++ [k2]) (frame m k g)) = true
          rw [h, Bool.or_true]
        · right
          show (restarts k g || anyRestart m (mid ++ [k2]) (frame m k g)) = true
          rw [h, Bool.or_true]

theorem panicRing_spec (m : MathFns) (center : Vector2) :
    (panicRing m center).length = 50 ∧
    ∀ p ∈ panicRing m center,
      p.type = WeaponType.BULLET ∧ p.GetDamage = 10 ∧ p.GetPosition = center ∧
      p.hasTexture = true := by
  constructor
  · simp only [panicRing, List.length_map, List.length_range]
  · intro p hp
    simp only [panicRing, List.mem_map] at hp
    obtain ⟨i, _, rfl⟩ := hp
    exact ⟨rfl, rfl, rfl, rfl⟩

/-! ## Restart and death -/

theorem restartStep_taken (k : FrameInput) (g : Game) (hdead : g.player.alive = false)
    (hR : k.keyR = true) :
    restartStep k g =
      { g with
        player := freshPlayer k.texW
        asteroids := []
        projectiles := []
        spawnTimer := 0
        spawnInterval := Utils.RandomFloat k.uRestart C_SPAWN_MIN C_SPAWN_MAX
        score := 0 } := by
  simp [restartStep, Ship.IsAlive, hdead, hR]

theorem restartStep_skipped (k : FrameInput) (g : Game)
    (h : g.player.alive = true ∨ k.keyR = false) : restartStep k g = g := by
  simp only [restartStep, Ship.IsAlive]
  rcases h with h | h <;> simp [h]

theorem TakeDamage_foldl_alive_iff (ds : List ℤ) :
    ∀ s : Ship, (s.alive = true ↔ 0 < s.hp) →
      ((ds.foldl Ship.TakeDamage s).alive = true ↔ 0 < (ds.foldl Ship.TakeDamage s).hp) := by
  induction ds with
  | nil => intro s h; exact h
  | cons d ds ih =>
    intro s h
    exact ih (s.TakeDamage d) (TakeDamage_alive_iff s d h)

/-- In every state the main loop reaches, the fire interval of either weapon is positive,
so the guard `0 < interval` of `shotLoop` holds whenever the loop is entered. -/
theorem reachable_interval_pos (m : MathFns) (g : Game) (h : Reachable m g)
    (w : WeaponType) : 0 < 1 / g.player.GetFireRate w :=
  interval_pos g.player (reachable_inv m g h) w

/-! ## Pairing in the projectile-asteroid pass -/

theorem pass_projectiles_sublist (ps : List Projectile) :
    ∀ (asts : List Asteroid) (score : ℤ),
      (projectileAsteroidPass ps asts score).1.Sublist ps := by
  induction ps with
  | nil => intro asts score; simp [projectileAsteroidPass]
  | cons p ps ih =>
    intro asts score
    simp only [projectileAsteroidPass]
    cases hfh : findHit p asts with
    | none => exact (ih asts score).cons₂ p
    | some x =>
      obtain ⟨a, rest⟩ := x
      exact (ih rest _).cons p

theorem pass_projectiles_perm (ps : List Projectile) :
    ∀ (asts : List Asteroid) (score : ℤ),
      ((passPairs ps asts).map Prod.fst ++ (projectileAsteroidPass ps asts score).1).Perm ps := by
  induction ps with
  | nil => intro asts score; simp [projectileAsteroidPass, passPairs]
  | cons p ps ih =>
    intro asts score
    simp only [projectileAsteroidPass, passPairs]
    cases hfh : findHit p asts with
    | none =>
      simp only
      exact List.perm_middle.trans ((ih asts score).cons p)
    | some x =>
      obtain ⟨a, rest⟩ := x
      simp only [List.map_cons, List.cons_append]
      exact (ih rest _).cons p

theorem pass_asteroids_perm (ps : List Projectile) :
    ∀ (asts : List Asteroid) (score : ℤ),
      ((passPairs ps asts).map Prod.snd ++ (projectileAsteroidPass ps asts score).2.1).Perm
        asts := by
  induction ps with
  | nil => intro asts score; simp [projectileAsteroidPass, passPairs]
  | cons p ps ih =>
    intro asts score
    simp only [projectileAsteroidPass, passPairs]
    cases hfh : findHit p asts with
    | none => exact ih asts score
    | some x =>
      obtain ⟨a, rest⟩ := x
      obtain ⟨pre, post, e1, e2, -, -⟩ := findHit_some p asts a rest hfh
      simp only [List.map_cons, List.cons_append]
      rw [e1]
      refine ((ih rest _).cons a).trans ?_
      rw [e2]
      exact List.perm_middle.symm

theorem passPairs_hit (ps : List Projectile) :
    ∀ asts : List Asteroid, ∀ pa ∈ passPairs ps asts, hits pa.1 pa.2 = true := by
  induction ps with
  | nil => intro asts pa hpa; simp [passPairs] at hpa
  | cons p ps ih =>
    intro asts pa hpa
    simp only [passPairs] at hpa
    cases hfh : findHit p asts with
    | none =>
      simp only [hfh] at hpa
      exact ih asts pa hpa
    | some x =>
      obtain ⟨a, rest⟩ := x
      simp only [hfh, List.mem_cons] at hpa
      obtain ⟨pre, post, -, -, -, e4⟩ := findHit_some p asts a rest hfh
      rcases hpa with rfl | hpa
      · exact e4
      · exact ih rest pa hpa

theorem pass_score_pairs (ps : List Projectile) :
    ∀ (asts : List Asteroid) (score : ℤ),
      (projectileAsteroidPass ps asts score).2.2 =
        score + 10 * ((passPairs ps asts).map fun pa => pa.2.GetSize).sum := by
  induction ps with
  | nil => intro asts score; simp [projectileAsteroidPass, passPairs]
  | cons p ps ih =>
    intro asts score
    simp only [projectileAsteroidPass, passPairs]
    cases hfh : findHit p asts with
    | none => exact ih asts score
    | some x =>
      obtain ⟨a, rest⟩ := x
      simp only [List.map_cons, List.sum_cons]
      rw [ih rest _]
      ring

theorem passLoop_exits (n : ℕ) :
    ∀ s : PassState, s.pending.length ≤ n →
      passLoop n s =
        some
          { visited :=
              s.visited ++ (projectileAsteroidPass s.pending s.asteroids s.score).1
            pending := []
            asteroids := (projectileAsteroidPass s.pending s.asteroids s.score).2.1
            score := (projectileAsteroidPass s.pending s.asteroids s.score).2.2 } := by
  induction n with
  | zero =>
    intro s hs
    have hnil : s.pending = [] := List.length_eq_zero.mp (Nat.le_zero.mp hs)
    obtain ⟨v, pd, asts, sc⟩ := s
    simp only at hnil
    subst hnil
    simp [passLoop, passRound, projectileAsteroidPass]
  | succ n ih =>
    intro s hs
    obtain ⟨v, pd, asts, sc⟩ := s
    cases pd with
    | nil => simp [passLoop, passRound, projectileAsteroidPass]
    | cons p rest =>
      have hlen : rest.length ≤ n := by
        simp only [List.length_cons] at hs
        omega
      cases hfh : findHit p asts with
      | none =>
        simp only [passLoop, passRound, hfh, projectileAsteroidPass]
        rw [ih _ hlen]
        simp
      | some x =>
        obtain ⟨a, asts1⟩ := x
        simp only [passLoop, passRound, hfh, projectileAsteroidPass]
        rw [ih _ hlen]

/-! ## The asteroid population -/

theorem asteroidShipPass_length (m : MathFns) (dt : ℚ) (asts : List Asteroid) :
    ∀ player : PlayerShip, (asteroidShipPass m dt player asts).2.length ≤ asts.length := by
  induction asts with
  | nil => intro player; simp [asteroidShipPass]
  | cons a rest ih =>
    intro player
    simp only [asteroidShipPass]
    have h := ih (remove_collision m dt player a).1
    split_ifs
    · exact Nat.le_succ_of_le h
    · simpa using h

theorem resolveStep_asteroids_length (m : MathFns) (k : FrameInput) (g : Game) :
    (resolveStep m k g).asteroids.length ≤ g.asteroids.length := by
  simp only [resolveStep]
  exact (asteroidShipPass_length m k.dt _ _).trans
    (pass_asteroids_sublist _ g.asteroids g.score).length_le

theorem shootingStep_asteroids (k : FrameInput) (s : Game) :
    (shootingStep k s).asteroids = s.asteroids := by
  simp only [shootingStep]
  split_ifs
  · by_cases hI : 0 < 1 / s.player.GetFireRate s.currentWeapon
    · rw [shotLoop_closed _ _ hI]
    · rw [shotLoop_nonpos _ _ hI]
  · rfl
  · rfl

theorem panicStep_asteroids (m : MathFns) (k : FrameInput) (s : Game) :
    (panicStep m k s).asteroids = s.asteroids := by
  simp only [panicStep]
  split_ifs <;> rfl

theorem restartStep_asteroids_length (k : FrameInput) (g : Game) :
    (restartStep k g).asteroids.length ≤ g.asteroids.length := by
  simp only [restartStep]
  split_ifs
  · exact Nat.zero_le _
  · exact Nat.le_refl _

theorem beforeShooting_asteroids (k : FrameInput) (g : Game) :
    (beforeShooting k g).asteroids = (restartStep k (updateStep k g)).asteroids := by
  unfold beforeShooting
  obtain ⟨w, hw⟩ := weaponStep_eq k (shapeStep k (restartStep k (updateStep k g)))
  obtain ⟨c, hc⟩ := shapeStep_eq k (restartStep k (updateStep k g))
  rw [hw, hc]

theorem spawnStep_taken (m : MathFns) (k : FrameInput) (g : Game)
    (ht : g.spawnTimer ≥ g.spawnInterval) (hn : g.asteroids.length < MAX_AST) :
    spawnStep m k g =
      { g with
        asteroids :=
          g.asteroids ++
            [MakeAsteroid m C_WIDTH C_HEIGHT g.currentShape k.rRaw k.typeRaw k.draws]
        spawnTimer := 0
        spawnInterval := Utils.RandomFloat k.uSpawn C_SPAWN_MIN C_SPAWN_MAX } := by
  simp only [spawnStep]
  rw [if_pos ⟨ht, hn⟩]

theorem spawnStep_skipped (m : MathFns) (k : FrameInput) (g : Game)
    (h : ¬ (g.spawnTimer ≥ g.spawnInterval ∧ g.asteroids.length < MAX_AST)) :
    spawnStep m k g = g := by
  simp only [spawnStep]
  rw [if_neg h]

theorem spawnStep_cap (m : MathFns) (k : FrameInput) (g : Game)
    (h : g.asteroids.length ≤ MAX_AST) : (spawnStep m k g).asteroids.length ≤ MAX_AST := by
  by_cases hc : g.spawnTimer ≥ g.spawnInterval ∧ g.asteroids.length < MAX_AST
  · rw [spawnStep_taken m k g hc.1 hc.2]
    simp only [List.length_append, List.length_singleton]
    exact hc.2
  · rw [spawnStep_skipped m k g hc]
    exact h

theorem beforeSpawn_cap (m : MathFns) (k : FrameInput) (g : Game)
    (h : g.asteroids.length ≤ MAX_AST) :
    (panicStep m k (shootingStep k (beforeShooting k g))).asteroids.length ≤ MAX_AST := by
  rw [panicStep_asteroids, shootingStep_asteroids, beforeShooting_asteroids]
  exact (restartStep_asteroids_length k (updateStep k g)).trans h

theorem frame_cap (m : MathFns) (k : FrameInput) (g : Game)
    (h : g.asteroids.length ≤ MAX_AST) : (frame m k g).asteroids.length ≤ MAX_AST := by
  rw [frame_eq]
  exact (resolveStep_asteroids_length m k _).trans
    (spawnStep_cap m k _ (beforeSpawn_cap m k g h))

theorem reachable_cap (m : MathFns) (g : Game) (h : Reachable m g) :
    g.asteroids.length ≤ MAX_AST := by
  induction h with
  | start texW u => simp [Game.start]
  | step k g _ _ ih => exact frame_cap m k g ih

/-! ## The claims -/

/-- C1.  Heat never leaves `[0, 100]`: `PlayerShip::Update(dt)` with `dt ≥ 0` and the heat
bookkeeping of a shot (add 3, clamp to 100) both keep `0 ≤ overheat ≤ 100`; hence the bound
holds of every player state that the operations of the main loop produce from a freshly
created player, and of the player at the start of every iteration of the main loop. -/
theorem heat_never_leaves_range (m : MathFns) :
    (∀ (p : PlayerShip) (k : FrameInput) (dt : ℚ),
        0 ≤ p.overheat → p.overheat ≤ 100 → 0 ≤ dt →
          0 ≤ (p.Update k dt).overheat ∧ (p.Update k dt).overheat ≤ 100) ∧
    (∀ p : PlayerShip, 0 ≤ p.overheat → p.overheat ≤ 100 →
        0 ≤ p.heatShot.overheat ∧ p.heatShot.overheat ≤ 100) ∧
    (∀ p : PlayerShip, PlayerReachable p → 0 ≤ p.overheat ∧ p.overheat ≤ 100) ∧
    (∀ g : Game, Reachable m g → 0 ≤ g.player.overheat ∧ g.player.overheat ≤ 100) :=
  ⟨fun p k dt h0 h1 hdt => Update_heatInRange p k dt ⟨h0, h1⟩ hdt,
   fun p h0 h1 => heatShot_heatInRange p ⟨h0, h1⟩,
   fun p h => (playerReachable_inv p h).heat,
   fun g h => (reachable_inv m g h).heat⟩

/-- Witness of C1: a player at heat 99 whose cooldown delay has elapsed, updated with
`dt = 1/2`. -/
theorem heat_never_leaves_range_witness :
    (0 : ℚ) ≤ ({ freshPlayer 256 with overheat := 99 } : PlayerShip).overheat ∧
    ({ freshPlayer 256 with overheat := 99 } : PlayerShip).overheat ≤ 100 ∧
    (0 : ℚ) ≤ 1 / 2 ∧
    0 ≤ (({ freshPlayer 256 with overheat := 99 } : PlayerShip).Update
          (idleInput (1 / 2)) (1 / 2)).overheat ∧
    (({ freshPlayer 256 with overheat := 99 } : PlayerShip).Update
          (idleInput (1 / 2)) (1 / 2)).overheat ≤ 100 :=
  ⟨by decide!, by decide!, by decide!,
   (heat_never_leaves_range sampleMath).1 { freshPlayer 256 with overheat := 99 }
     (idleInput (1 / 2)) (1 / 2) (by decide!) (by decide!) (by decide!)⟩

/-- C2.  Overheat hysteresis.  The flag `overheated` is set when heat reaches 100 (by a
shot, and whenever `Update` ends with heat at 100).  Once set, no operation on the player
other than `Update` clears it (a shot keeps it; `TakeDamage` and the panic skill do not
touch it), and an `Update` from a non-negative heat that clears it leaves heat at 0 and
clears `overheatSkillUsed` as well; conversely an `Update` that starts overheated and ends
with heat 0 clears both.  For every `dt ≥ 0`, an `Update` that starts overheated and ends
with heat above 0 leaves `overheated` and `overheatSkillUsed` unchanged.  In the main loop
the flag of the player therefore goes from set to clear within an iteration only when the
`Update` of that iteration left heat at 0, or when the restart block replaced the dead
player by a new one. -/
theorem overheat_hysteresis (m : MathFns) :
    (∀ p : PlayerShip, 100 ≤ p.overheat + 3 →
        p.heatShot.overheated = true ∧ p.heatShot.overheat = 100) ∧
    (∀ (p : PlayerShip) (k : FrameInput) (dt : ℚ),
        100 ≤ (p.Update k dt).overheat → (p.Update k dt).overheated = true) ∧
    (∀ p : PlayerShip, p.overheated = true → p.heatShot.overheated = true) ∧
    (∀ (p : PlayerShip) (d : ℤ), (p.TakeDamage d).overheated = p.overheated) ∧
    (∀ (p : PlayerShip) (k : FrameInput) (dt : ℚ),
        0 ≤ p.overheat → p.overheated = true → (p.Update k dt).overheated = false →
          (p.Update k dt).overheat = 0 ∧ (p.Update k dt).overheatSkillUsed = false) ∧
    (∀ (p : PlayerShip) (k : FrameInput) (dt : ℚ),
        p.overheated = true → (p.Update k dt).overheat = 0 →
          (p.Update k dt).overheated = false ∧ (p.Update k dt).overheatSkillUsed = false) ∧
    (∀ (p : PlayerShip) (k : FrameInput) (dt : ℚ),
        0 ≤ dt → p.overheated = true → 0 < (p.Update k dt).overheat →
          (p.Update k dt).overheated = p.overheated ∧
          (p.Update k dt).overheatSkillUsed = p.overheatSkillUsed) ∧
    (∀ (g : Game) (k : FrameInput),
        Reachable m g → 0 ≤ k.dt → g.player.overheated = true →
        (frame m k g).player.overheated = false →
          ((g.player.Update k k.dt).overheated = false ∧
            (g.player.Update k k.dt).overheat = 0 ∧
            (g.player.Update k k.dt).overheatSkillUsed = false) ∨
          (g.player.alive = false ∧ k.keyR = true)) := by
  refine ⟨heatShot_sets, ?_, heatShot_keeps_flag, fun p d => rfl, ?_, ?_, ?_, ?_⟩
  · intro p k dt h
    obtain ⟨q, hq, -, -, -⟩ := Update_heat_eq_cool p k dt
    rw [hq] at h ⊢
    exact cool_hot_overheated q dt h
  · intro p k dt h0 hov hcl
    obtain ⟨q, hq, e1, e2, -⟩ := Update_heat_eq_cool p k dt
    rw [hq] at hcl ⊢
    exact cool_cleared q dt (e1 ▸ h0) (e2 ▸ hov) hcl
  · intro p k dt hov hz
    obtain ⟨q, hq, -, e2, -⟩ := Update_heat_eq_cool p k dt
    rw [hq] at hz ⊢
    exact cool_zero_clears q dt (e2 ▸ hov) hz
  · intro p k dt _ hov hpos
    obtain ⟨q, hq, -, e2, e3⟩ := Update_heat_eq_cool p k dt
    rw [hq] at hpos ⊢
    have := cool_positive_keeps q dt (e2 ▸ hov) hpos
    rw [this.1, this.2, hov, e3]
    exact ⟨rfl, rfl⟩
  · intro g k hg _ hov hcl
    by_cases hr : g.player.alive = false ∧ k.keyR = true
    · exact Or.inr hr
    · left
      have hu : (g.player.Update k k.dt).overheated = false := by
        by_contra hne
        have := frame_keeps_flag m k g (by simpa using hne) hr
        rw [hcl] at this
        exact Bool.false_ne_true this
      obtain ⟨q, hq, e1, e2, -⟩ := Update_heat_eq_cool g.player k k.dt
      have h0 : 0 ≤ g.player.overheat := (reachable_inv m g hg).heat.1
      rw [hq] at hu ⊢
      exact ⟨hu, cool_cleared q k.dt (e1 ▸ h0) (e2 ▸ hov) hu⟩

/-- Witness of C2: an overheated player at heat 100 whose cooldown delay is still running,
updated with `dt = 1/2`, stays overheated. -/
theorem overheat_hysteresis_witness :
    (0 : ℚ) ≤ 1 / 2 ∧
    ({ freshPlayer 256 with overheat := 100, overheated := true, overheatCooldown := 1 } :
        PlayerShip).overheated = true ∧
    0 < (({ freshPlayer 256 with overheat := 100, overheated := true, overheatCooldown := 1 } :
        PlayerShip).Update (idleInput (1 / 2)) (1 / 2)).overheat ∧
    (({ freshPlayer 256 with overheat := 100, overheated := true, overheatCooldown := 1 } :
        PlayerShip).Update (idleInput (1 / 2)) (1 / 2)).overheated = true ∧
    (({ freshPlayer 256 with overheat := 100, overheated := true, overheatCooldown := 1 } :
        PlayerShip).Update (idleInput (1 / 2)) (1 / 2)).overheatSkillUsed = false :=
  ⟨by decide!, by decide!, by decide!,
   (overheat_hysteresis sampleMath).2.2.2.2.2.2.1
     { freshPlayer 256 with overheat := 100, overheated := true, overheatCooldown := 1 }
     (idleInput (1 / 2)) (1 / 2) (by decide!) (by decide!) (by decide!)⟩

/-- C3, as stated, fails.  Two lasers enter the pass within range of the same medium
triangle asteroid: the first laser and the asteroid are removed, the second laser stays
although it was within range of the asteroid, and the score rises by 20 once.  One laser
enters within range of two asteroids: only the first asteroid is removed, the large one
stays, and the score rises by 20, not by 40. -/
theorem both_removed_counterexample :
    (hits (laserAt ⟨101, 100⟩) (triangleAt ⟨100, 100⟩ 2) = true ∧
      projectileAsteroidPass [laserAt ⟨100, 100⟩, laserAt ⟨101, 100⟩]
        [triangleAt ⟨100, 100⟩ 2] 0 = ([laserAt ⟨101, 100⟩], [], 20)) ∧
    (hits (laserAt ⟨100, 100⟩) (triangleAt ⟨110, 100⟩ 4) = true ∧
      projectileAsteroidPass [laserAt ⟨100, 100⟩]
        [triangleAt ⟨100, 100⟩ 2, triangleAt ⟨110, 100⟩ 4] 0 =
          ([], [triangleAt ⟨110, 100⟩ 4], 20)) := by
  decide!

/-- C3, amended.  For every list of projectiles and every list of asteroids entering the
pass: no projectile and asteroid that are within `radius(p) + radius(a)` of each other both
survive the pass; the first projectile of the list, when an asteroid is in range, is
removed together with the first asteroid in list order within its range, the score rises by
`10 ×` the size multiplier of that asteroid and the pass goes on with the remaining lists;
over the whole pass the score rises by exactly `10 ×` the sum of the size multipliers of the
removed asteroids; and a single projectile within range of a single asteroid is removed
together with it, the score rising by `10 ×` its size multiplier. -/
theorem projectile_asteroid_resolution :
    (∀ (ps : List Projectile) (asts : List Asteroid) (score : ℤ),
      ∀ p ∈ (projectileAsteroidPass ps asts score).1,
        ∀ a ∈ (projectileAsteroidPass ps asts score).2.1, hits p a = false) ∧
    (∀ (p : Projectile) (ps : List Projectile) (pre : List Asteroid) (a : Asteroid)
        (post : List Asteroid) (score : ℤ),
      (∀ b ∈ pre, hits p b = false) → hits p a = true →
        projectileAsteroidPass (p :: ps) (pre ++ a :: post) score =
          projectileAsteroidPass ps (pre ++ post) (score + 10 * a.GetSize)) ∧
    (∀ (ps : List Projectile) (asts : List Asteroid) (score : ℤ),
      (projectileAsteroidPass ps asts score).2.2 =
        score + 10 * ((asts.map Asteroid.GetSize).sum -
          ((projectileAsteroidPass ps asts score).2.1.map Asteroid.GetSize).sum)) ∧
    (∀ (p : Projectile) (a : Asteroid) (score : ℤ), hits p a = true →
      projectileAsteroidPass [p] [a] score = ([], [], score + 10 * a.GetSize)) := by
  refine ⟨fun ps => pass_no_collision_left ps, ?_, fun ps => pass_score ps, ?_⟩
  · intro p ps pre a post score hpre ha
    simp only [projectileAsteroidPass, findHit_first p pre a post hpre ha]
  · intro p a score ha
    simp [projectileAsteroidPass, findHit, ha]

/-- Witness of C3: one laser directly on one triangle asteroid; both are removed and the
score rises by 20 for a medium asteroid and by 40 for a large one. -/
theorem projectile_asteroid_resolution_witness :
    (hits (laserAt ⟨100, 100⟩) (triangleAt ⟨100, 100⟩ 2) = true ∧
      projectileAsteroidPass [laserAt ⟨100, 100⟩] [triangleAt ⟨100, 100⟩ 2] 0 =
        ([], [], 20)) ∧
    (hits (laserAt ⟨100, 100⟩) (triangleAt ⟨100, 100⟩ 4) = true ∧
      projectileAsteroidPass [laserAt ⟨100, 100⟩] [triangleAt ⟨100, 100⟩ 4] 0 =
        ([], [], 40)) :=
  ⟨⟨by decide!,
    projectile_asteroid_resolution.2.2.2 (laserAt ⟨100, 100⟩) (triangleAt ⟨100, 100⟩ 2) 0
      (by decide!)⟩,
   ⟨by decide!,
    projectile_asteroid_resolution.2.2.2 (laserAt ⟨100, 100⟩) (triangleAt ⟨100, 100⟩ 4) 0
      (by decide!)⟩⟩

/-- C4.  Asteroid-ship resolution.  An asteroid that the pass visits while the player is
alive and whose centre is closer to the ship than `playerRadius + asteroidRadius` is
removed, and the player's hp decreases by exactly its `GetDamage()`; this holds of the
lambda `remove_collision` and of every position of the asteroid list, the player being the
one left by the asteroids visited before.  When the player is not alive, `TakeDamage` is a
no-op, the pass leaves the player (hence hp) unchanged, and the asteroids removed are
exactly those whose own `Update` reports that they left the screen. -/
theorem asteroid_ship_resolution (m : MathFns) (dt : ℚ) :
    (∀ (player : PlayerShip) (a : Asteroid), player.alive = true →
      distanceLess player.GetPosition a.GetPosition (player.GetRadius + a.GetRadius) = true →
        (remove_collision m dt player a).1.hp = player.hp - a.GetDamage ∧
        (remove_collision m dt player a).2.2 = true) ∧
    (∀ (player : PlayerShip) (pre : List Asteroid) (a : Asteroid) (post : List Asteroid),
      (asteroidShipPass m dt player pre).1.alive = true →
      distanceLess (asteroidShipPass m dt player pre).1.GetPosition a.GetPosition
        ((asteroidShipPass m dt player pre).1.GetRadius + a.GetRadius) = true →
        ((asteroidShipPass m dt player pre).1.TakeDamage a.GetDamage).hp =
          (asteroidShipPass m dt player pre).1.hp - a.GetDamage ∧
        asteroidShipPass m dt player (pre ++ a :: post) =
          ((asteroidShipPass m dt
              ((asteroidShipPass m dt player pre).1.TakeDamage a.GetDamage) post).1,
            (asteroidShipPass m dt player pre).2 ++
              (asteroidShipPass m dt
                ((asteroidShipPass m dt player pre).1.TakeDamage a.GetDamage) post).2)) ∧
    (∀ (s : Ship) (dmg : ℤ), s.alive = false → s.TakeDamage dmg = s) ∧
    (∀ (player : PlayerShip) (a : Asteroid), player.alive = false →
        (remove_collision m dt player a).1 = player ∧
        (remove_collision m dt player a).2.2 = !(a.Update m player.GetPosition dt).2) ∧
    (∀ (player : PlayerShip) (asts : List Asteroid), player.alive = false →
        (asteroidShipPass m dt player asts).1 = player ∧
        (asteroidShipPass m dt player asts).2 =
          asts.filterMap fun a =>
            if (a.Update m player.GetPosition dt).2 then
              some (a.Update m player.GetPosition dt).1
            else none) := by
  refine ⟨?_, ?_, TakeDamage_dead, ?_, ?_⟩
  · intro player a halive hin
    rw [remove_collision_hit m dt player a halive hin]
    exact ⟨(TakeDamage_alive_hp player.toShip a.GetDamage halive).1, rfl⟩
  · intro player pre a post halive hin
    refine ⟨(TakeDamage_alive_hp _ a.GetDamage halive).1, ?_⟩
    rw [asteroidShipPass_append]
    simp only [asteroidShipPass, remove_collision_hit m dt _ a halive hin, if_true]
  · intro player a hdead
    rw [remove_collision_dead m dt player a hdead]
    exact ⟨rfl, rfl⟩
  · intro player asts hdead
    rw [asteroidShipPass_dead m dt player hdead asts]
    exact ⟨rfl, rfl⟩

/-- Witness of C4: a new player (hp 100, radius 32) with a large square asteroid on it:
the asteroid is removed and hp drops by `10 × 4 = 40`. -/
theorem asteroid_ship_resolution_witness :
    (freshPlayer 256).alive = true ∧
    distanceLess (freshPlayer 256).GetPosition (squareAt ⟨1280, 700⟩ 4).GetPosition
      ((freshPlayer 256).GetRadius + (squareAt ⟨1280, 700⟩ 4).GetRadius) = true ∧
    (remove_collision sampleMath (1 / 60) (freshPlayer 256) (squareAt ⟨1280, 700⟩ 4)).1.hp
      = 100 - 40 ∧
    (remove_collision sampleMath (1 / 60) (freshPlayer 256) (squareAt ⟨1280, 700⟩ 4)).2.2
      = true :=
  ⟨by decide!, by decide!,
   (asteroid_ship_resolution sampleMath (1 / 60)).1 (freshPlayer 256) (squareAt ⟨1280, 700⟩ 4)
     (by decide!) (by decide!)⟩

/-- C5 fails as stated, in two ways.  First, with no frame at all: in the state reached
from the start of the game by one laser frame of 1/20 s with the fire key held (no shot yet,
accumulator 1/20), the empty sequence of frames emits nothing, while for the bullet interval
`I = 1/22` the formula `⌊(a + T) / I⌋` is 1.  Second, in the `float` arithmetic of the
program the count depends on the split of `T`: with the laser, from accumulator 0, one frame
of 1 s emits 17 shots and four frames of 1/4 s emit 18 (`1.f / 18` is the float
`14913081 / 2^28`; `⌊1 / (1/18)⌋ = 18` and `⌊1 / float(1/18)⌋ = 17`). -/
theorem firing_count_counterexample :
    ((0 : ℚ) < 1 / 22 ∧
      (frame sampleMath (fireInput (1 / 20)) (Game.start 256 0)).shotTimer = 1 / 20 ∧
      (frame sampleMath (fireInput (1 / 20)) (Game.start 256 0)).player.alive = true ∧
      (frame sampleMath (fireInput (1 / 20)) (Game.start 256 0)).player.overheated = false ∧
      fireHeld sampleMath (1 / 22) []
        (frame sampleMath (fireInput (1 / 20)) (Game.start 256 0)) = true ∧
      (totalShots sampleMath []
        (frame sampleMath (fireInput (1 / 20)) (Game.start 256 0)) : ℤ) = 0 ∧
      ⌊((frame sampleMath (fireInput (1 / 20)) (Game.start 256 0)).shotTimer +
          (([] : List FrameInput).map FrameInput.dt).sum) / (1 / 22)⌋ = 1) ∧
    (roundF32 (1 / 18) = 14913081 / 268435456 ∧ roundF32 1 = 1 ∧ roundF32 (1 / 4) = 1 / 4 ∧
      roundedFiring roundF32 18 64 [1] 0 = some (17, 14913031 / 268435456) ∧
      roundedFiring roundF32 18 64 [1 / 4, 1 / 4, 1 / 4, 1 / 4] 0 =
        some (18, 7 / 134217728) ∧
      ⌊((0 : ℚ) + 1) / (1 / 18)⌋ = 18 ∧ ⌊((0 : ℚ) + 1) / roundF32 (1 / 18)⌋ = 17) := by
  decide!

/-- C5, amended.  With the accumulator computed exactly (no rounding): let fire be held
during a non-empty sequence of frames with frame times `dt_i ≥ 0` of sum `T`, that is, in
every frame, when the block `Shooting` is entered, the player is alive and can shoot (not
overheated), the fire key is down and the fire interval `1 / fireRate` is `I > 0`.  Then
for every accumulator value `a ≥ 0` at the start, the fire control emits `⌊(a + T) / I⌋`
projectiles in total and the accumulator ends at `(a + T) - I * ⌊(a + T) / I⌋`; in
particular two ways of splitting the same `T` into frames emit the same number of
projectiles.  In a state that satisfies the invariant of the reachable states, a player
that is alive and not overheated at the start of a frame with `dt ≥ 0` is alive and can
shoot when the block `Shooting` of that frame is entered.  The count and the accumulator of
the run are those of the accumulator loop with every operation rounded by `rnd`, taken at
`rnd = id`.  Whatever the rounding, the shot loop of a frame exits with the accumulator
below the interval.  With `float` rounding the total does depend on the split: with the
laser, from accumulator 0, one frame of 1 s emits 17 shots and four frames of 1/4 s emit
18, where exact arithmetic gives 18 for both. -/
theorem firing_frame_rate_independent (m : MathFns) (interval : ℚ) (ks : List FrameInput)
    (g : Game) (hI : 0 < interval) (ha : 0 ≤ g.shotTimer) (hks : ks ≠ [])
    (hheld : fireHeld m interval ks g = true) :
    ((totalShots m ks g : ℤ) = ⌊(g.shotTimer + (ks.map FrameInput.dt).sum) / interval⌋ ∧
      (run m ks g).shotTimer =
        (g.shotTimer + (ks.map FrameInput.dt).sum) -
          interval * ⌊(g.shotTimer + (ks.map FrameInput.dt).sum) / interval⌋) ∧
    (∀ ks2 : List FrameInput, ks2 ≠ [] → fireHeld m interval ks2 g = true →
      (ks2.map FrameInput.dt).sum = (ks.map FrameInput.dt).sum →
        totalShots m ks2 g = totalShots m ks g ∧
        (run m ks2 g).shotTimer = (run m ks g).shotTimer) ∧
    (∀ (s : Game) (k : FrameInput), PlayerInv s.player → 0 ≤ k.dt →
      s.player.alive = true → s.player.overheated = false →
        (beforeShooting k s).player.IsAlive = true ∧
        (beforeShooting k s).player.CanShoot = true) ∧
    (∀ rate : ℚ, 1 / rate = interval →
      ∃ fuel0 : ℕ, ∀ fuel : ℕ, fuel0 ≤ fuel →
        roundedFiring id rate fuel (ks.map FrameInput.dt) g.shotTimer =
          some (totalShots m ks g, (run m ks g).shotTimer)) ∧
    (∀ (rnd : ℚ → ℚ) (iv : ℚ) (fuel : ℕ) (t : ℚ) (n : ℕ) (t1 : ℚ),
      roundedShotLoop rnd iv fuel t = some (n, t1) → t1 < iv) ∧
    (roundedFiring roundF32 18 64 [1] 0 = some (17, 14913031 / 268435456) ∧
      roundedFiring roundF32 18 64 [1 / 4, 1 / 4, 1 / 4, 1 / 4] 0 =
        some (18, 7 / 134217728) ∧
      roundedFiring id 18 64 [1] 0 = some (18, 0) ∧
      roundedFiring id 18 64 [1 / 4, 1 / 4, 1 / 4, 1 / 4] 0 = some (18, 0)) := by
  have h1 := fire_accumulation m interval hI ks g ha hheld (Or.inl hks)
  refine ⟨h1, ?_, ?_, ?_, ?_, float_split_dependence⟩
  · intro ks2 hks2 hheld2 hsum
    have h2 := fire_accumulation m interval hI ks2 g ha hheld2 (Or.inl hks2)
    rw [hsum] at h2
    refine ⟨?_, h2.2.trans h1.2.symm⟩
    have := h2.1.trans h1.1.symm
    exact_mod_cast this
  · intro s k hinv hdt hal hov
    rw [beforeShooting_alive k s hal]
    obtain ⟨q, hq, e1, e2, -⟩ := Update_heat_eq_cool s.player k k.dt
    refine ⟨?_, ?_⟩
    · show (s.player.Update k k.dt).alive = true
      rw [(Update_toShip _ _ _).2.1]; exact hal
    · show (!(s.player.Update k k.dt).overheated) = true
      rw [hq, cool_stays_cool q k.dt hdt (e2 ▸ hov) (e1 ▸ hinv.below hov)]
      rfl
  · intro rate hr
    exact roundedFiring_exact m rate interval hr hI ks g hheld
  · intro rnd iv fuel t n t1 h
    exact roundedShotLoop_exit rnd iv fuel t n t1 h

/-- Witness of C5: from the start of the game, fire held with the laser (`I = 1/18`) during
two frames of `1/10` s: `⌊(0 + 1/5) / (1/18)⌋ = 3` projectiles in total (one in the first
frame, two in the second), the accumulator ending at `1/30`. -/
theorem firing_frame_rate_independent_witness :
    ((0 : ℚ) < 1 / 18 ∧ (0 : ℚ) ≤ (Game.start 256 0).shotTimer ∧
      [fireInput (1 / 10), fireInput (1 / 10)] ≠ [] ∧
      fireHeld sampleMath (1 / 18) [fireInput (1 / 10), fireInput (1 / 10)]
        (Game.start 256 0) = true) ∧
    ((totalShots sampleMath [fireInput (1 / 10), fireInput (1 / 10)] (Game.start 256 0) : ℤ) =
        ⌊((Game.start 256 0).shotTimer +
          ([fireInput (1 / 10), fireInput (1 / 10)].map FrameInput.dt).sum) / (1 / 18)⌋ ∧
      (run sampleMath [fireInput (1 / 10), fireInput (1 / 10)] (Game.start 256 0)).shotTimer =
        ((Game.start 256 0).shotTimer +
          ([fireInput (1 / 10), fireInput (1 / 10)].map FrameInput.dt).sum) -
          (1 / 18) * ⌊((Game.start 256 0).shotTimer +
            ([fireInput (1 / 10), fireInput (1 / 10)].map FrameInput.dt).sum) / (1 / 18)⌋) ∧
    (totalShots sampleMath [fireInput (1 / 10), fireInput (1 / 10)] (Game.start 256 0) = 3 ∧
      shotsEmitted (fireInput (1 / 10)) (Game.start 256 0) = 1 ∧
      (run sampleMath [fireInput (1 / 10), fireInput (1 / 10)] (Game.start 256 0)).shotTimer
        = 1 / 30) :=
  ⟨⟨by decide!, by decide!, by decide!, by decide!⟩,
   (firing_frame_rate_independent sampleMath (1 / 18)
      [fireInput (1 / 10), fireInput (1 / 10)] (Game.start 256 0)
      (by decide!) (by decide!) (by decide!) (by decide!)).1,
   by decide!⟩

/-- C6.  For every shape argument and every random draw, the asteroid `a` that
`MakeAsteroid` returns has `GetDamage() = baseDamage(class) × size multiplier`, where the
base damage is 5 for a triangle, 10 for a square, 15 for a pentagon and 20 for a chasing
asteroid; its size multiplier is 2 or 4 (never 1); `GetRadius() = 16 × size multiplier`; the
shape arguments `TRIANGLE`, `SQUARE`, `PENTAGON` give the class of that name; and neither
`Asteroid::Update` nor `ChasingAsteroid::Update` (nor the virtual call) changes the size,
the base damage or the class of any asteroid. -/
theorem asteroid_damage_size (m : MathFns) (w h : ℤ) (shape : ℤ) (rRaw typeRaw : ℕ)
    (d : AsteroidDraws) :
    (MakeAsteroid m w h shape rRaw typeRaw d).GetDamage =
      baseDamageOf (MakeAsteroid m w h shape rRaw typeRaw d).cls *
        (MakeAsteroid m w h shape rRaw typeRaw d).GetSize ∧
    (baseDamageOf AsteroidClass.TriangleAsteroid = 5 ∧
      baseDamageOf AsteroidClass.SquareAsteroid = 10 ∧
      baseDamageOf AsteroidClass.PentagonAsteroid = 15 ∧
      baseDamageOf AsteroidClass.ChasingAsteroid = 20) ∧
    ((MakeAsteroid m w h shape rRaw typeRaw d).GetSize = Renderable.MEDIUM ∨
      (MakeAsteroid m w h shape rRaw typeRaw d).GetSize = Renderable.LARGE) ∧
    (MakeAsteroid m w h shape rRaw typeRaw d).GetSize ≠ Renderable.SMALL ∧
    (MakeAsteroid m w h shape rRaw typeRaw d).GetRadius =
      16 * ((MakeAsteroid m w h shape rRaw typeRaw d).GetSize : ℚ) ∧
    (MakeAsteroid m w h AsteroidShape.TRIANGLE rRaw typeRaw d).cls =
      AsteroidClass.TriangleAsteroid ∧
    (MakeAsteroid m w h AsteroidShape.SQUARE rRaw typeRaw d).cls =
      AsteroidClass.SquareAsteroid ∧
    (MakeAsteroid m w h AsteroidShape.PENTAGON rRaw typeRaw d).cls =
      AsteroidClass.PentagonAsteroid ∧
    (∀ (a : Asteroid) (playerPos : Vector2) (dt : ℚ),
      ((a.UpdateBase dt).1.GetSize = a.GetSize ∧
        (a.UpdateBase dt).1.baseDamage = a.baseDamage) ∧
      ((ChasingAsteroid.Update m playerPos a dt).1.GetSize = a.GetSize ∧
        (ChasingAsteroid.Update m playerPos a dt).1.baseDamage = a.baseDamage) ∧
      ((a.Update m playerPos dt).1.GetSize = a.GetSize ∧
        (a.Update m playerPos dt).1.baseDamage = a.baseDamage ∧
        (a.Update m playerPos dt).1.cls = a.cls ∧
        (a.Update m playerPos dt).1.GetDamage = a.GetDamage ∧
        (a.Update m playerPos dt).1.GetRadius = a.GetRadius)) := by
  have hsize : ∀ c, (Asteroid.init m w h d c).render.size = 2 ∨
      (Asteroid.init m w h d c).render.size = 4 := init_size m w h d
  have hmk := MakeAsteroid_cases m w h shape rRaw typeRaw d
  refine ⟨?_, ⟨rfl, rfl, rfl, rfl⟩, ?_, ?_, rfl, ?_, ?_, ?_, ?_⟩
  · rcases hmk with e | e | e | e <;> rw [e] <;> rfl
  · rcases hmk with e | e | e | e <;> rw [e]
    · exact hsize AsteroidClass.TriangleAsteroid
    · exact hsize AsteroidClass.SquareAsteroid
    · exact hsize AsteroidClass.PentagonAsteroid
    · exact hsize AsteroidClass.ChasingAsteroid
  · have h2 : ∀ c, (Asteroid.init m w h d c).render.size ≠ 1 := by
      intro c
      rcases hsize c with e | e <;> rw [e] <;> decide
    rcases hmk with e | e | e | e <;> rw [e]
    · exact h2 AsteroidClass.TriangleAsteroid
    · exact h2 AsteroidClass.SquareAsteroid
    · exact h2 AsteroidClass.PentagonAsteroid
    · exact h2 AsteroidClass.ChasingAsteroid
  · simp [MakeAsteroid, AsteroidShape.TRIANGLE, TriangleAsteroid.new, init_cls]
  · simp [MakeAsteroid, AsteroidShape.TRIANGLE, AsteroidShape.SQUARE, SquareAsteroid.new,
      init_cls]
  · simp [MakeAsteroid, AsteroidShape.TRIANGLE, AsteroidShape.SQUARE, AsteroidShape.PENTAGON,
      PentagonAsteroid.new, init_cls]
  · intro a playerPos dt
    have hk := Update_keeps m playerPos a dt
    refine ⟨⟨?_, hk.2.1⟩, ⟨?_, hk.2.2.2.2.1⟩, ?_, hk.2.2.2.2.2.2.2.1, hk.2.2.2.2.2.2.2.2, ?_, ?_⟩
    · simp only [Asteroid.GetSize, hk.1]
    · simp only [Asteroid.GetSize, hk.2.2.2.1]
    · simp only [Asteroid.GetSize, hk.2.2.2.2.2.2.1]
    · simp only [Asteroid.GetDamage, hk.2.2.2.2.2.2.1, hk.2.2.2.2.2.2.2.1]
    · simp only [Asteroid.GetRadius, hk.2.2.2.2.2.2.1]

/-- C7, as stated, fails.  From the start of the game, with the fire key held, a single
frame of 2 s (laser, fire interval `1/18`) runs the shot loop 36 times: after the 34th round
`overheated` is true, and the loop goes on for two more rounds, so two more projectiles are
emitted after the flag was set while heat is still 100. -/
theorem lockout_counterexample :
    fireKeyHeld sampleMath [fireInput 2] (Game.start 256 0) = true ∧
    ((shotBody (1 / 18) 720)^[34]
      { beforeShooting (fireInput 2) (Game.start 256 0) with shotTimer := 2 }).player.overheated
        = true ∧
    ((shotBody (1 / 18) 720)^[34]
      { beforeShooting (fireInput 2) (Game.start 256 0) with shotTimer := 2 }).projectiles.length
        = 34 ∧
    shootingStep (fireInput 2) (beforeShooting (fireInput 2) (Game.start 256 0)) =
      (shotBody (1 / 18) 720)^[2] ((shotBody (1 / 18) 720)^[34]
        { beforeShooting (fireInput 2) (Game.start 256 0) with shotTimer := 2 }) ∧
    (shootingStep (fireInput 2)
      (beforeShooting (fireInput 2) (Game.start 256 0))).projectiles.length = 36 ∧
    (shootingStep (fireInput 2)
      (beforeShooting (fireInput 2) (Game.start 256 0))).player.overheat = 100 ∧
    shotsEmitted (fireInput 2) (Game.start 256 0) = 36 := by
  decide!

/-- C7, amended.  Starting from a fresh player (heat 0, not overheated), `overheated`
becomes true on the 34th shot and not earlier (33 shots give heat 99): this holds of the
heat bookkeeping of `n` consecutive shots, and of every run of the main loop from its start
in which the fire key is held and the player alive at the start of every frame; there heat
is `3 ×` the number of shots emitted as long as fewer than 34 were emitted (no cooling takes
place), and the frame in which the 34th shot is emitted ends overheated at heat 100.  The
shot loop of that frame runs until its accumulator is used up.  In every frame whose block
`Shooting` is entered with `overheated` true, fire input produces no projectile; and a
frame that starts overheated, whose `Update` leaves heat above 0 and in which the player is
not replaced by a restart, emits no shot and ends overheated. -/
theorem overheat_lockout (m : MathFns) :
    (∀ (texW : ℤ) (n : ℕ),
      ((PlayerShip.heatShot^[n] (freshPlayer texW)).overheated = true ↔ 34 ≤ n) ∧
      (n ≤ 33 → (PlayerShip.heatShot^[n] (freshPlayer texW)).overheat = 3 * (n : ℚ))) ∧
    (∀ (texW : ℤ) (u : ℚ) (ks : List FrameInput) (k : FrameInput),
      fireKeyHeld m (ks ++ [k]) (Game.start texW u) = true →
      totalShots m ks (Game.start texW u) < 34 →
        ((run m ks (Game.start texW u)).player.overheated = false ∧
          (run m ks (Game.start texW u)).player.overheat =
            3 * (totalShots m ks (Game.start texW u) : ℚ)) ∧
        (34 ≤ totalShots m (ks ++ [k]) (Game.start texW u) →
          (run m (ks ++ [k]) (Game.start texW u)).player.overheated = true ∧
          (run m (ks ++ [k]) (Game.start texW u)).player.overheat = 100)) ∧
    (∀ (k : FrameInput) (g : Game), (beforeShooting k g).player.overheated = true →
      shotsEmitted k g = 0 ∧
      (shootingStep k (beforeShooting k g)).projectiles = (beforeShooting k g).projectiles) ∧
    (∀ (g : Game) (k : FrameInput), g.player.overheated = true →
      0 < (g.player.Update k k.dt).overheat → ¬ (g.player.alive = false ∧ k.keyR = true) →
        shotsEmitted k g = 0 ∧ (frame m k g).player.overheated = true) := by
  refine ⟨?_, ?_, shotsEmitted_blocked, ?_⟩
  · intro texW n
    obtain ⟨v1, v2, -⟩ := heatShot_iterate_values n (freshPlayer texW)
    have h0 : (freshPlayer texW).overheat = 0 := rfl
    have hf : (freshPlayer texW).overheated = false := rfl
    rw [h0] at v1 v2
    rw [hf] at v2
    constructor
    · rw [v2]
      constructor
      · rintro (h | ⟨_, h⟩)
        · exact absurd h Bool.false_ne_true
        · have h2 : (100 : ℚ) ≤ ((3 * n : ℕ) : ℚ) := by push_cast; linarith
          have h3 : 100 ≤ 3 * n := by exact_mod_cast h2
          omega
      · intro h
        right
        have h2 : (34 : ℚ) ≤ (n : ℚ) := by exact_mod_cast h
        exact ⟨by omega, by linarith⟩
    · intro hn
      have h2 : (n : ℚ) ≤ 33 := by exact_mod_cast hn
      rw [v1]
      by_cases hz : n = 0
      · simp [hz]
      · simp only [hz, if_false]
        rw [min_eq_left (by linarith)]
        ring
  · intro texW u ks k hheld hlt
    obtain ⟨h1, h2⟩ := fireKeyHeld_append m [k] ks _ hheld
    have hinv := fire_run m ks _ 0 (start_fireInv texW u) h1 (by omega)
    rw [Nat.zero_add] at hinv
    refine ⟨⟨hinv.cool, hinv.heat⟩, ?_⟩
    intro hge
    rw [totalShots_append] at hge
    simp only [totalShots, Nat.add_zero] at hge
    simp only [fireKeyHeld, Bool.and_eq_true, decide_eq_true_eq, and_true] at h2
    obtain ⟨⟨hdt, hal⟩, hsp⟩ := h2
    have := (fire_step m k _ _ hinv hlt hdt hal hsp).2 hge
    rw [run_append]
    exact this
  · intro g k hov hpos hr
    have hb := beforeShooting_no_restart k g hr
    obtain ⟨q, hq, -, e2, -⟩ := Update_heat_eq_cool g.player k k.dt
    have hu : (g.player.Update k k.dt).overheated = true := by
      rw [hq] at hpos ⊢
      exact (cool_positive_keeps q k.dt (e2 ▸ hov) hpos).1
    exact ⟨(shotsEmitted_blocked k g (by rw [hb]; exact hu)).1, frame_keeps_flag m k g hu hr⟩

/-- Witness of C7: from the start of the game a single frame of 2 s with the fire key held
emits 36 shots; before it fewer than 34 shots were emitted (none), so the frame ends
overheated at heat 100. -/
theorem overheat_lockout_witness :
    (fireKeyHeld sampleMath ([] ++ [fireInput 2]) (Game.start 256 0) = true ∧
      totalShots sampleMath [] (Game.start 256 0) < 34 ∧
      34 ≤ totalShots sampleMath ([] ++ [fireInput 2]) (Game.start 256 0)) ∧
    ((run sampleMath ([] ++ [fireInput 2]) (Game.start 256 0)).player.overheated = true ∧
      (run sampleMath ([] ++ [fireInput 2]) (Game.start 256 0)).player.overheat = 100) :=
  ⟨⟨by decide!, by decide!, by decide!⟩,
   ((overheat_lockout sampleMath).2.1 256 0 [] (fireInput 2) (by decide!) (by decide!)).2
     (by decide!)⟩

/-- C8, as stated, fails.  A run from the start of the game: in the first frame (2 s, fire
and up held) the player overheats, moves to the top edge and is hit by a large chasing
asteroid (hp 20); in the second the panic key triggers the skill; in the third a second
large chasing asteroid kills the player; in the fourth (2 s, restart, fire and panic keys)
the player is replaced, overheats again and the skill is triggered a second time.  No
`Update` between the two triggers returned heat to 0 or cleared `overheated`.  The values
of `cosf`, `sinf` and `Vector2Normalize` play no part: both asteroids are removed by the
collision with the ship before they move, and the ring of the first trigger starts 100
units above the screen and leaves the list in the same frame. -/
theorem panic_once_counterexample :
    (run sampleMath [burstFrame] (Game.start 256 0)).player.overheated = true ∧
    (run sampleMath [burstFrame] (Game.start 256 0)).player.hp = 20 ∧
    panicFires panicFrame (run sampleMath [burstFrame] (Game.start 256 0)) = true ∧
    (run sampleMath [burstFrame, panicFrame, hitFrame] (Game.start 256 0)).player.alive
      = false ∧
    panicFires restartFrame
      (run sampleMath [burstFrame, panicFrame, hitFrame] (Game.start 256 0)) = true ∧
    anyUpdateClears sampleMath [hitFrame, restartFrame]
      (run sampleMath [burstFrame, panicFrame] (Game.start 256 0)) = false ∧
    restarts restartFrame
      (run sampleMath [burstFrame, panicFrame, hitFrame] (Game.start 256 0)) = true := by
  decide!

/-- C8, amended.  When the panic skill is triggered (player alive, overheated, panic key
just pressed, `overheatSkillUsed` false) it appends exactly 50 projectiles, all of type
Bullet with damage 10 and starting at the player's position, whatever weapon is selected,
and sets `overheatSkillUsed`; when it is not triggered the step changes nothing.  In every
run from a reachable state, between any two triggers there is an `Update` in which heat
returned to 0 and `overheated` was cleared, or a restart that replaced the player by a new
one. -/
theorem panic_skill (m : MathFns) :
    (∀ (k : FrameInput) (g : Game),
      panicTriggered k g = true ↔
        (g.player.alive = true ∧ g.player.overheated = true ∧ k.keyE = true ∧
          g.player.overheatSkillUsed = false)) ∧
    (∀ (k : FrameInput) (g : Game), panicTriggered k g = true →
      (panicStep m k g).projectiles = g.projectiles ++ panicRing m g.player.GetPosition ∧
      (panicStep m k g).projectiles.length = g.projectiles.length + 50 ∧
      (∀ p ∈ panicRing m g.player.GetPosition,
        p.type = WeaponType.BULLET ∧ p.GetDamage = 10 ∧ p.GetPosition = g.player.GetPosition) ∧
      (panicStep m k g).player.overheatSkillUsed = true) ∧
    (∀ (k : FrameInput) (g : Game), panicTriggered k g = false → panicStep m k g = g) ∧
    (∀ (g : Game) (k1 : FrameInput) (mid : List FrameInput) (k2 : FrameInput),
      Reachable m g → 0 ≤ k1.dt → (∀ k ∈ mid ++ [k2], 0 ≤ k.dt) →
      panicFires k1 g = true → panicFires k2 (run m mid (frame m k1 g)) = true →
        anyUpdateClears m (mid ++ [k2]) (frame m k1 g) = true ∨
        anyRestart m (mid ++ [k2]) (frame m k1 g) = true) := by
  refine ⟨?_, ?_, ?_, ?_⟩
  · intro k g
    simp [panicTriggered, Ship.IsAlive, and_assoc]
  · intro k g h
    have hs := panicRing_spec m g.player.GetPosition
    refine ⟨?_, ?_, fun p hp => ⟨(hs.2 p hp).1, (hs.2 p hp).2.1, (hs.2 p hp).2.2.1⟩, ?_⟩
    · simp only [panicStep, h, if_true]
    · simp only [panicStep, h, if_true, List.length_append, hs.1]
    · simp only [panicStep, h, if_true]
  · intro k g h
    simp [panicStep, h]
  · intro g k1 mid k2 hg hdt1 hdt hf1 hf2
    have hinv := frame_closed playerInv_closed m k1 g hdt1 (reachable_inv m g hg)
    exact panic_needs_clear m k2 mid (frame m k1 g) hinv (frame_sets_used m k1 g hf1) hdt hf2

/-- Witness of C8: from the start of the game a frame of 2 s with the fire and panic keys
overheats the weapon and triggers the skill; after two idle frames of 2 s and 4 s (heat
back at 0) the same input triggers it again. -/
theorem panic_skill_witness :
    ((0 : ℚ) ≤ restartFrame.dt ∧
      (∀ k ∈ [idleInput 2, idleInput 4] ++ [restartFrame], 0 ≤ k.dt) ∧
      panicFires restartFrame (Game.start 256 0) = true ∧
      panicFires restartFrame
        (run sampleMath [idleInput 2, idleInput 4]
          (frame sampleMath restartFrame (Game.start 256 0))) = true) ∧
    (anyUpdateClears sampleMath ([idleInput 2, idleInput 4] ++ [restartFrame])
        (frame sampleMath restartFrame (Game.start 256 0)) = true ∨
      anyRestart sampleMath ([idleInput 2, idleInput 4] ++ [restartFrame])
        (frame sampleMath restartFrame (Game.start 256 0)) = true) :=
  ⟨⟨by decide!, by decide!, by decide!, by decide!⟩,
   (panic_skill sampleMath).2.2.2 (Game.start 256 0) restartFrame [idleInput 2, idleInput 4]
     restartFrame (Reachable.start 256 0) (by decide!) (by decide!) (by decide!) (by decide!)⟩

/-- C9.  Restart.  When the player is not alive and the restart key was just pressed, the
restart block sets the score to 0, empties the asteroid and the projectile collections and
replaces the player by a new one with hp 100, alive, heat 0, not overheated and panic skill
not used (this also holds of the block as it runs inside a frame, after `Update`); when the
player is alive, or the key was not pressed, the block changes nothing. -/
theorem restart_resets (k : FrameInput) (g : Game) :
    (g.player.alive = false → k.keyR = true →
      (restartStep k g).score = 0 ∧ (restartStep k g).asteroids = [] ∧
      (restartStep k g).projectiles = [] ∧
      (restartStep k g).player = freshPlayer k.texW ∧
      (restartStep k g).player.hp = 100 ∧ (restartStep k g).player.alive = true ∧
      (restartStep k g).player.overheat = 0 ∧ (restartStep k g).player.overheated = false ∧
      (restartStep k g).player.overheatSkillUsed = false) ∧
    (g.player.alive = false → k.keyR = true →
      (restartStep k (updateStep k g)).score = 0 ∧
      (restartStep k (updateStep k g)).asteroids = [] ∧
      (restartStep k (updateStep k g)).projectiles = [] ∧
      (restartStep k (updateStep k g)).player = freshPlayer k.texW) ∧
    (g.player.alive = true ∨ k.keyR = false → restartStep k g = g) := by
  refine ⟨?_, ?_, restartStep_skipped k g⟩
  · intro hdead hR
    rw [restartStep_taken k g hdead hR]
    exact ⟨rfl, rfl, rfl, rfl, rfl, rfl, rfl, rfl, rfl⟩
  · intro hdead hR
    have hd2 : (updateStep k g).player.alive = false := by
      show (g.player.Update k k.dt).alive = false
      rw [(Update_toShip _ _ _).2.1]
      exact hdead
    rw [restartStep_taken k (updateStep k g) hd2 hR]
    exact ⟨rfl, rfl, rfl, rfl⟩

/-- Witness of C9: the restart block on the state in which the player has just been killed
(score, asteroids and projectiles aside, the player is dead with hp -60). -/
theorem restart_resets_witness :
    ((run sampleMath [burstFrame, panicFrame, hitFrame] (Game.start 256 0)).player.alive
        = false ∧
      restartFrame.keyR = true) ∧
    ((restartStep restartFrame
        (run sampleMath [burstFrame, panicFrame, hitFrame] (Game.start 256 0))).score = 0 ∧
      (restartStep restartFrame
        (run sampleMath [burstFrame, panicFrame, hitFrame] (Game.start 256 0))).asteroids
          = [] ∧
      (restartStep restartFrame
        (run sampleMath [burstFrame, panicFrame, hitFrame] (Game.start 256 0))).projectiles
          = [] ∧
      (restartStep restartFrame
        (run sampleMath [burstFrame, panicFrame, hitFrame] (Game.start 256 0))).player.hp
          = 100) :=
  ⟨⟨by decide!, by decide!⟩,
   have h := (restart_resets restartFrame
      (run sampleMath [burstFrame, panicFrame, hitFrame] (Game.start 256 0))).1
      (by decide!) (by decide!)
   ⟨h.1, h.2.1, h.2.2.1, h.2.2.2.2.1⟩⟩

/-- C10.  Player death.  `Ship::TakeDamage` on an alive ship subtracts the damage and makes
the ship non-alive exactly when the resulting hp is `≤ 0`; hence "alive if and only if
`hp > 0`" holds after every sequence of `TakeDamage` calls on a new ship (hp 100, alive), of
every player state produced by the operations of the main loop, and at the start of every
iteration of the main loop; once the ship is non-alive, `TakeDamage` changes nothing. -/
theorem player_death (m : MathFns) :
    (∀ (s : Ship) (dmg : ℤ), s.alive = true →
      (s.TakeDamage dmg).hp = s.hp - dmg ∧
      ((s.TakeDamage dmg).alive = false ↔ (s.TakeDamage dmg).hp ≤ 0)) ∧
    ((Ship.new C_WIDTH C_HEIGHT).hp = 100 ∧ (Ship.new C_WIDTH C_HEIGHT).alive = true) ∧
    (∀ (w h : ℤ) (ds : List ℤ),
      (ds.foldl Ship.TakeDamage (Ship.new w h)).alive = true ↔
        0 < (ds.foldl Ship.TakeDamage (Ship.new w h)).hp) ∧
    (∀ p : PlayerShip, PlayerReachable p → (p.alive = true ↔ 0 < p.hp)) ∧
    (∀ g : Game, Reachable m g → (g.player.alive = true ↔ 0 < g.player.hp)) ∧
    (∀ (s : Ship) (dmg : ℤ), s.alive = false →
      s.TakeDamage dmg = s ∧ (s.TakeDamage dmg).hp = s.hp ∧ (s.TakeDamage dmg).alive = false) := by
  refine ⟨?_, ⟨rfl, rfl⟩, ?_, ?_, ?_, ?_⟩
  · intro s dmg h
    obtain ⟨h1, h2⟩ := TakeDamage_alive_hp s dmg h
    refine ⟨h1, ?_⟩
    rw [h1]
    constructor
    · intro hf
      by_contra hc
      have := h2.mpr (by omega)
      rw [hf] at this
      exact Bool.false_ne_true this
    · intro hle
      by_contra hc
      have := h2.mp (by simpa using hc)
      omega
  · intro w h ds
    exact TakeDamage_foldl_alive_iff ds (Ship.new w h) (by simp [Ship.new])
  · intro p hp
    exact (playerReachable_inv p hp).alive_iff
  · intro g hg
    exact (reachable_inv m g hg).alive_iff
  · intro s dmg h
    rw [TakeDamage_dead s dmg h]
    exact ⟨rfl, rfl, h⟩

/-- Witness of C10: a ship with hp 15 hit by a large square asteroid (damage `10 × 4 = 40`)
has hp -25 and is not alive. -/
theorem player_death_witness :
    ({ Ship.new C_WIDTH C_HEIGHT with hp := 15 } : Ship).alive = true ∧
    (squareAt ⟨1280, 700⟩ 4).GetDamage = 40 ∧
    (({ Ship.new C_WIDTH C_HEIGHT with hp := 15 } : Ship).TakeDamage
      (squareAt ⟨1280, 700⟩ 4).GetDamage).hp = -25 ∧
    (({ Ship.new C_WIDTH C_HEIGHT with hp := 15 } : Ship).TakeDamage
      (squareAt ⟨1280, 700⟩ 4).GetDamage).alive = false :=
  have h := (player_death sampleMath).1 { Ship.new C_WIDTH C_HEIGHT with hp := 15 }
    (squareAt ⟨1280, 700⟩ 4).GetDamage (by decide!)
  ⟨by decide!, by decide!, h.1, h.2.mpr (by decide!)⟩

/-- C11.  Asteroid population cap.  `MAX_AST` is 150.  In every state that the main loop
reaches, and in the state of every frame right after its block `Spawn asteroids`, the
number of live asteroids is at most 150.  The spawn block appends exactly one asteroid and
sets the spawn timer to 0 when `spawnTimer ≥ spawnInterval` and the count is below 150;
otherwise it changes nothing.  No other block of the frame adds an asteroid: the update,
shape, weapon, shooting and panic blocks leave the asteroid list as it is, and the restart
block and the two collision blocks never lengthen it. -/
theorem asteroid_population_cap (m : MathFns) :
    MAX_AST = 150 ∧
    (∀ g : Game, Reachable m g → g.asteroids.length ≤ 150) ∧
    (∀ (g : Game) (k : FrameInput), Reachable m g →
      (spawnStep m k (panicStep m k (shootingStep k (beforeShooting k g)))).asteroids.length
        ≤ 150) ∧
    (∀ (k : FrameInput) (g : Game),
      g.spawnTimer ≥ g.spawnInterval → g.asteroids.length < 150 →
        (spawnStep m k g).asteroids =
          g.asteroids ++
            [MakeAsteroid m C_WIDTH C_HEIGHT g.currentShape k.rRaw k.typeRaw k.draws] ∧
        (spawnStep m k g).asteroids.length = g.asteroids.length + 1 ∧
        (spawnStep m k g).spawnTimer = 0) ∧
    (∀ (k : FrameInput) (g : Game),
      ¬ (g.spawnTimer ≥ g.spawnInterval ∧ g.asteroids.length < 150) →
        spawnStep m k g = g) ∧
    (∀ (k : FrameInput) (g : Game),
      (updateStep k g).asteroids = g.asteroids ∧
      (restartStep k g).asteroids.length ≤ g.asteroids.length ∧
      (shapeStep k g).asteroids = g.asteroids ∧
      (weaponStep k g).asteroids = g.asteroids ∧
      (shootingStep k g).asteroids = g.asteroids ∧
      (panicStep m k g).asteroids = g.asteroids ∧
      (resolveStep m k g).asteroids.length ≤ g.asteroids.length) := by
  refine ⟨rfl, reachable_cap m, ?_, ?_, spawnStep_skipped m, ?_⟩
  · intro g k hg
    exact spawnStep_cap m k _ (beforeSpawn_cap m k g (reachable_cap m g hg))
  · intro k g ht hn
    rw [spawnStep_taken m k g ht hn]
    refine ⟨rfl, ?_, rfl⟩
    simp only [List.length_append, List.length_singleton]
  · intro k g
    refine ⟨rfl, restartStep_asteroids_length k g, ?_, ?_, shootingStep_asteroids k g,
      panicStep_asteroids m k g, resolveStep_asteroids_length m k g⟩
    · obtain ⟨c, hc⟩ := shapeStep_eq k g
      rw [hc]
    · obtain ⟨w, hw⟩ := weaponStep_eq k g
      rw [hw]

/-- Witness of C11: with the spawn timer elapsed, the spawn block takes a population of 149
asteroids to 150 and resets the timer, and leaves a population of 150 as it is. -/
theorem asteroid_population_cap_witness :
    ((crowdedGame 149).spawnTimer ≥ (crowdedGame 149).spawnInterval ∧
      (crowdedGame 149).asteroids.length < 150 ∧
      (spawnStep sampleMath (idleInput (1 / 60)) (crowdedGame 149)).asteroids.length
        = (crowdedGame 149).asteroids.length + 1 ∧
      (spawnStep sampleMath (idleInput (1 / 60)) (crowdedGame 149)).spawnTimer = 0) ∧
    (¬ ((crowdedGame 150).spawnTimer ≥ (crowdedGame 150).spawnInterval ∧
        (crowdedGame 150).asteroids.length < 150) ∧
      spawnStep sampleMath (idleInput (1 / 60)) (crowdedGame 150) = crowdedGame 150) :=
  ⟨⟨by decide!, by decide!,
    ((asteroid_population_cap sampleMath).2.2.2.1 (idleInput (1 / 60)) (crowdedGame 149)
      (by decide!) (by decide!)).2⟩,
   ⟨by decide!,
    (asteroid_population_cap sampleMath).2.2.2.2.1 (idleInput (1 / 60)) (crowdedGame 150)
      (by decide!)⟩⟩

/-- C12.  One-for-one destruction.  For every list of projectiles and asteroids, the
projectile-asteroid pass erases projectiles and asteroids in pairs: every projectile
entering the pass either survives or is in exactly one pair, and so is every asteroid, so
no asteroid is paired with two projectiles and no projectile with two asteroids; the two
members of a pair are within range of each other.  A projectile with no asteroid in range
at its turn stays and erases nothing; otherwise it is erased together with the first
asteroid in list order within its range, and with no other.  Hence the number of
projectiles removed equals the number of asteroids removed, and the score rises by `10 ×`
the sum of the size multipliers of the removed asteroids. -/
theorem one_for_one_destruction (ps : List Projectile) (asts : List Asteroid) (score : ℤ) :
    (((passPairs ps asts).map Prod.fst ++ (projectileAsteroidPass ps asts score).1).Perm ps ∧
      ((passPairs ps asts).map Prod.snd ++
        (projectileAsteroidPass ps asts score).2.1).Perm asts) ∧
    (∀ pa ∈ passPairs ps asts, hits pa.1 pa.2 = true) ∧
    (∀ (p : Projectile) (rest : List Projectile) (cur : List Asteroid) (sc : ℤ),
      (∀ b ∈ cur, hits p b = false) →
        projectileAsteroidPass (p :: rest) cur sc =
          (p :: (projectileAsteroidPass rest cur sc).1,
            (projectileAsteroidPass rest cur sc).2.1,
            (projectileAsteroidPass rest cur sc).2.2) ∧
        passPairs (p :: rest) cur = passPairs rest cur) ∧
    (∀ (p : Projectile) (rest : List Projectile) (pre : List Asteroid) (a : Asteroid)
        (post : List Asteroid) (sc : ℤ),
      (∀ b ∈ pre, hits p b = false) → hits p a = true →
        projectileAsteroidPass (p :: rest) (pre ++ a :: post) sc =
          projectileAsteroidPass rest (pre ++ post) (sc + 10 * a.GetSize) ∧
        passPairs (p :: rest) (pre ++ a :: post) = (p, a) :: passPairs rest (pre ++ post)) ∧
    ((projectileAsteroidPass ps asts score).1.length ≤ ps.length ∧
      (projectileAsteroidPass ps asts score).2.1.length ≤ asts.length ∧
      ps.length - (projectileAsteroidPass ps asts score).1.length = (passPairs ps asts).length ∧
      asts.length - (projectileAsteroidPass ps asts score).2.1.length
        = (passPairs ps asts).length ∧
      ps.length - (projectileAsteroidPass ps asts score).1.length =
        asts.length - (projectileAsteroidPass ps asts score).2.1.length) ∧
    ((projectileAsteroidPass ps asts score).2.2 - score =
        10 * ((passPairs ps asts).map fun pa => pa.2.GetSize).sum ∧
      (projectileAsteroidPass ps asts score).2.2 - score =
        10 * ((asts.map Asteroid.GetSize).sum -
          ((projectileAsteroidPass ps asts score).2.1.map Asteroid.GetSize).sum)) := by
  have hp := pass_projectiles_perm ps asts score
  have ha := pass_asteroids_perm ps asts score
  have hpl := hp.length_eq
  have hal := ha.length_eq
  simp only [List.length_append, List.length_map] at hpl hal
  refine ⟨⟨hp, ha⟩, passPairs_hit ps asts, ?_, ?_, ?_, ?_⟩
  · intro p rest cur sc hnone
    have hf := (findHit_none p cur).mpr hnone
    constructor
    · simp only [projectileAsteroidPass, hf]
    · simp only [passPairs, hf]
  · intro p rest pre a post sc hpre hhit
    have hf := findHit_first p pre a post hpre hhit
    constructor
    · simp only [projectileAsteroidPass, hf]
    · simp only [passPairs, hf]
  · refine ⟨?_, ?_, ?_, ?_, ?_⟩ <;> omega
  · constructor
    · rw [pass_score_pairs ps asts score]
      ring
    · rw [pass_score ps asts score]
      ring

/-- Witness of C12: two lasers and three triangle asteroids; the first laser is in range of
the second and the third asteroid and is erased with the second (a large one), the second
laser is then erased with the third: two projectiles and two asteroids removed, the score
rising by `10 × (4 + 2)`. -/
theorem one_for_one_destruction_witness :
    ((∀ b ∈ [triangleAt ⟨500, 500⟩ 2], hits (laserAt ⟨100, 100⟩) b = false) ∧
      hits (laserAt ⟨100, 100⟩) (triangleAt ⟨100, 100⟩ 4) = true) ∧
    (projectileAsteroidPass (laserAt ⟨100, 100⟩ :: [laserAt ⟨101, 100⟩])
        ([triangleAt ⟨500, 500⟩ 2] ++ triangleAt ⟨100, 100⟩ 4 :: [triangleAt ⟨110, 100⟩ 2]) 0 =
        projectileAsteroidPass [laserAt ⟨101, 100⟩]
          ([triangleAt ⟨500, 500⟩ 2] ++ [triangleAt ⟨110, 100⟩ 2])
          (0 + 10 * (triangleAt ⟨100, 100⟩ 4).GetSize) ∧
      passPairs (laserAt ⟨100, 100⟩ :: [laserAt ⟨101, 100⟩])
        ([triangleAt ⟨500, 500⟩ 2] ++ triangleAt ⟨100, 100⟩ 4 :: [triangleAt ⟨110, 100⟩ 2]) =
        (laserAt ⟨100, 100⟩, triangleAt ⟨100, 100⟩ 4) ::
          passPairs [laserAt ⟨101, 100⟩]
            ([triangleAt ⟨500, 500⟩ 2] ++ [triangleAt ⟨110, 100⟩ 2])) ∧
    projectileAsteroidPass [laserAt ⟨100, 100⟩, laserAt ⟨101, 100⟩]
        [triangleAt ⟨500, 500⟩ 2, triangleAt ⟨100, 100⟩ 4, triangleAt ⟨110, 100⟩ 2] 0 =
      ([], [triangleAt ⟨500, 500⟩ 2], 60) :=
  ⟨⟨by decide!, by decide!⟩,
   (one_for_one_destruction [laserAt ⟨100, 100⟩, laserAt ⟨101, 100⟩]
     [triangleAt ⟨500, 500⟩ 2, triangleAt ⟨100, 100⟩ 4, triangleAt ⟨110, 100⟩ 2]
     0).2.2.2.1 (laserAt ⟨100, 100⟩) [laserAt ⟨101, 100⟩]
     [triangleAt ⟨500, 500⟩ 2] (triangleAt ⟨100, 100⟩ 4) [triangleAt ⟨110, 100⟩ 2] 0
     (by decide!) (by decide!),
   by decide!⟩

/-- C13.  The projectile-asteroid pass terminates on every pair of finite lists: the loop,
run round by round with its iterator, exits after at most as many rounds as there are
projectiles, in the state that the pass computes.  It leaves no collision behind: after it
no surviving projectile is within `radius(projectile) + radius(asteroid)` of a surviving
asteroid.  The surviving projectiles and the surviving asteroids are subsequences of the
input lists, in the original order. -/
theorem pass_terminates_clean (ps : List Projectile) (asts : List Asteroid) (score : ℤ) :
    (∀ n : ℕ, ps.length ≤ n →
      passLoop n { visited := [], pending := ps, asteroids := asts, score := score } =
        some
          { visited := (projectileAsteroidPass ps asts score).1
            pending := []
            asteroids := (projectileAsteroidPass ps asts score).2.1
            score := (projectileAsteroidPass ps asts score).2.2 }) ∧
    (∀ p ∈ (projectileAsteroidPass ps asts score).1,
      ∀ a ∈ (projectileAsteroidPass ps asts score).2.1,
        distanceLess p.GetPosition a.GetPosition (p.GetRadius + a.GetRadius) = false) ∧
    (projectileAsteroidPass ps asts score).1.Sublist ps ∧
    (projectileAsteroidPass ps asts score).2.1.Sublist asts := by
  refine ⟨?_, pass_no_collision_left ps asts score, pass_projectiles_sublist ps asts score,
    pass_asteroids_sublist ps asts score⟩
  intro n hn
  have h := passLoop_exits n
    { visited := [], pending := ps, asteroids := asts, score := score } hn
  simpa using h

/-- Witness of C13: two lasers and three triangle asteroids; the loop exits within two
rounds, and the asteroid left is out of range of every projectile (none is left). -/
theorem pass_terminates_clean_witness :
    [laserAt ⟨100, 100⟩, laserAt ⟨101, 100⟩].length ≤ 2 ∧
    passLoop 2
      { visited := []
        pending := [laserAt ⟨100, 100⟩, laserAt ⟨101, 100⟩]
        asteroids :=
          [triangleAt ⟨500, 500⟩ 2, triangleAt ⟨100, 100⟩ 4, triangleAt ⟨110, 100⟩ 2]
        score := 0 } =
      some
        { visited :=
            (projectileAsteroidPass [laserAt ⟨100, 100⟩, laserAt ⟨101, 100⟩]
              [triangleAt ⟨500, 500⟩ 2, triangleAt ⟨100, 100⟩ 4, triangleAt ⟨110, 100⟩ 2] 0).1
          pending := []
          asteroids :=
            (projectileAsteroidPass [laserAt ⟨100, 100⟩, laserAt ⟨101, 100⟩]
              [triangleAt ⟨500, 500⟩ 2, triangleAt ⟨100, 100⟩ 4, triangleAt ⟨110, 100⟩ 2] 0).2.1
          score :=
            (projectileAsteroidPass [laserAt ⟨100, 100⟩, laserAt ⟨101, 100⟩]
              [triangleAt ⟨500, 500⟩ 2, triangleAt ⟨100, 100⟩ 4, triangleAt ⟨110, 100⟩ 2]
              0).2.2 } :=
  ⟨by decide!,
   (pass_terminates_clean [laserAt ⟨100, 100⟩, laserAt ⟨101, 100⟩]
     [triangleAt ⟨500, 500⟩ 2, triangleAt ⟨100, 100⟩ 4, triangleAt ⟨110, 100⟩ 2] 0).1 2
     (by decide!)⟩

end AsteroidShooter
